import Mathlib

/-!
Shallow embedding of `asciimatics/screen.py` (the `Screen` drawing surface and
the `_BufferedScreen` double-buffered diff engine, plus the backend resize
checks of `_WindowsScreen` / `_CursesScreen` / `_BlessedScreen`).

Python machine model used throughout:
* a Python `list` is a `List`; reading `lst[i]` uses Python index semantics
  (negative indices count from the end; any index out of range raises
  `IndexError`, modelled as `Option.none`);
* writing `lst[i] = v` is modelled by `pySet` / `pySet2` (again `none` models
  `IndexError`);
* string slices `s[k:]` and `s[:k]` follow Python slice semantics (negative
  bounds count from the end and clamp);
* fallible computations return `Option`, threaded with `do` notation.
-/

/-- Python read `lst[i]` for `i ≥ 0` only (plain `list` indexing with a
non-negative index); out of range is `IndexError` (`none`). -/
def pyGetNat {α : Type} (l : List α) (i : Nat) : Option α := l[i]?

/-- Python write `lst[i] = a` for `i ≥ 0`: succeeds exactly when `i` is in
range, otherwise `IndexError` (`none`). -/
def pySetNat {α : Type} (l : List α) (i : Nat) (a : α) : Option (List α) :=
  if i < l.length then some (l.set i a) else none

/-- Python read `lst[i]` with full index semantics: a negative index `i` is
first shifted by `len(lst)`; a still-negative or too-large result raises
`IndexError` (`none`). -/
def pyGet {α : Type} (l : List α) (i : Int) : Option α :=
  let j : Int := if i < 0 then i + l.length else i
  if j < 0 then none else l[j.toNat]?

/-- Python slice `s[:k]` (`k` may be negative, counting from the end;
out-of-range bounds clamp, never raise). -/
def pyTakeSlice {α : Type} (l : List α) (k : Int) : List α :=
  if k < 0 then l.take (l.length + k).toNat else l.take k.toNat

/-- Python slice `s[k:]` for `k ≥ 0` (the source only uses `text[-x:]` after
checking `x < 0`, so the start bound is non-negative there). -/
def pyDropSlice {α : Type} (l : List α) (k : Nat) : List α := l.drop k

/-- One character cell of the screen buffers: the Python tuple
`(<character>, <foreground>, <attribute>, <background>)` built by
`_BufferedScreen._reset` and `print_at`. -/
structure Cell where
  ch : Char
  fg : Int
  attr : Int
  bg : Int
deriving DecidableEq, Repr

/-- The blank cell `(" ", 7, 0, 0)` used by `_BufferedScreen._reset`. -/
def blankCell : Cell := ⟨' ', 7, 0, 0⟩

/-- Read a cell of a buffer at non-negative (row, column) coordinates. -/
def cell2 (g : List (List Cell)) (r c : Nat) : Option Cell :=
  g[r]?.bind (fun row => row[c]?)

/-- Python write `g[r][c] = a` on a nested list, non-negative coordinates. -/
def pySet2 {α : Type} (g : List (List α)) (r c : Nat) (a : α) :
    Option (List (List α)) := do
  let row ← g[r]?
  let row2 ← pySetNat row c a
  pySetNat g r row2

/-- Abstract record of one backend-primitive invocation made by the diff
engine (`_scroll`, `_clear`, `_change_colours`, `_print_at`). -/
inductive BackendCall where
  | scrollCall : BackendCall
  | clearCall : BackendCall
  | changeColours (fg attr bg : Int) : BackendCall
  | printCall (text : List Char) (x y : Nat) : BackendCall
deriving DecidableEq, Repr

/-- State of a `_BufferedScreen`: the committed buffer (`_screen_buffer`),
the pending buffer (`_double_buffer`), the viewport bookkeeping
(`_start_line`, `_last_start_line`) and the drawing cursor (`_x`, `_y`,
which `_reset` sets to `None`). `height`/`width`/`_buffer_height` are fixed
at construction. -/
structure ScreenState where
  height : Nat
  width : Nat
  bufferHeight : Nat
  screenBuffer : List (List Cell)
  doubleBuffer : List (List Cell)
  startLine : Nat
  lastStartLine : Nat
  cursorX : Option Int
  cursorY : Option Int
deriving DecidableEq, Repr

/-- `_BufferedScreen._reset`: zero the scrolling state, clear the drawing
cursor, and rebuild both buffers as `buffer_height` rows of `width` blank
cells (`copy.deepcopy` gives two independent equal grids). -/
def resetState (st : ScreenState) : ScreenState :=
  let line : List Cell := List.replicate st.width blankCell
  let grid : List (List Cell) := List.replicate st.bufferHeight line
  { st with
    startLine := 0
    lastStartLine := 0
    cursorX := none
    cursorY := none
    screenBuffer := grid
    doubleBuffer := grid }

/-- `_BufferedScreen.__init__(height, width, buffer_height)` followed by the
`_reset()` it performs. -/
def initScreen (height width bufferHeight : Nat) : ScreenState :=
  resetState
    { height := height, width := width, bufferHeight := bufferHeight
      screenBuffer := [], doubleBuffer := []
      startLine := 0, lastStartLine := 0, cursorX := none, cursorY := none }

/-- `_BufferedScreen.scroll`: `self._start_line += 1`. -/
def scroll (st : ScreenState) : ScreenState :=
  { st with startLine := st.startLine + 1 }

/-- The body of the write loop of `print_at`: write the cell
`(c, colour, attr, bg)` at column `xIdx + i` of row `yIdx` of the pending
buffer unless `c` is a space and `transparent` is set. -/
def printStep (yIdx xIdx : Nat) (colour attr bg : Int) (transparent : Bool)
    (db : List (List Cell)) (ic : Nat × Char) : Option (List (List Cell)) :=
  if ic.2 ≠ ' ' ∨ transparent = false then
    pySet2 db yIdx (xIdx + ic.1) ⟨ic.2, colour, attr, bg⟩
  else some db

/-- `_BufferedScreen.print_at(text, x, y, colour, attr, bg, transparent)`:
vertical clipping is a silent no-op; a negative `x` drops the leading `-x`
characters and resets `x` to 0; `x + len(text) >= width` truncates to
`text[:width - x]`; then each remaining character is written into the
pending buffer (`_double_buffer`), skipping spaces when `transparent`.
`none` models the `IndexError` a write outside the row raises. -/
def printAt (st : ScreenState) (text : List Char) (x y : Int)
    (colour attr bg : Int) (transparent : Bool) : Option ScreenState :=
  if y < 0 ∨ y ≥ (st.bufferHeight : Int) then some st
  else
    let p := if x < 0 then (pyDropSlice text (-x).toNat, (0 : Int)) else (text, x)
    let text2 := p.1
    let x2 := p.2
    let text3 :=
      if x2 + text2.length ≥ (st.width : Int) then
        pyTakeSlice text2 ((st.width : Int) - x2)
      else text2
    if text3.length > 0 then
      (text3.enum.foldlM
        (printStep y.toNat x2.toNat colour attr bg transparent)
        st.doubleBuffer).map
        (fun db => { st with doubleBuffer := db })
    else some st

/-- `_BufferedScreen.get_from(x, y)`: unchecked Python indexing into the
committed buffer (`self._screen_buffer[y][x]`), returning
`(ord(cell[0]), cell[1], cell[2], cell[3])`. -/
def get_from (st : ScreenState) (x y : Int) : Option (Nat × Int × Int × Int) := do
  let row ← pyGet st.screenBuffer y
  let cell ← pyGet row x
  return (cell.ch.toNat, cell.fg, cell.attr, cell.bg)

/-- One step of the diff loop in `_BufferedScreen.refresh` for the viewport
cell `(y, x)`: read the pending cell, compare to the committed cell, and if
they differ invoke `_change_colours` and `_print_at` and copy the cell into
the committed buffer. -/
def refreshStep (db : List (List Cell)) (startLine : Nat)
    (acc : List (List Cell) × List BackendCall) (yx : Nat × Nat) :
    Option (List (List Cell) × List BackendCall) := do
  let row ← db[yx.1 + startLine]?
  let newCell ← row[yx.2]?
  let srow ← acc.1[yx.1 + startLine]?
  let oldCell ← srow[yx.2]?
  if oldCell ≠ newCell then
    let sb2 ← pySet2 acc.1 (yx.1 + startLine) yx.2 newCell
    return (sb2, acc.2 ++
      [BackendCall.changeColours newCell.fg newCell.attr newCell.bg,
       BackendCall.printCall [newCell.ch] yx.2 yx.1])
  else
    return acc

/-- The `(y, x)` iteration order of the nested loops in `refresh`:
`for y in range(height): for x in range(width)`. -/
def refreshCoords (height width : Nat) : List (Nat × Nat) :=
  (List.range height).flatMap (fun y => (List.range width).map (fun x => (y, x)))

/-- `_BufferedScreen.refresh`: first issue
`start_line - last_start_line` physical `_scroll` calls and record the new
baseline, then run the diff loop over every viewport cell. Returns the new
state together with the ordered trace of backend invocations. -/
def refresh (st : ScreenState) : Option (ScreenState × List BackendCall) := do
  let scrollCalls :=
    List.replicate (st.startLine - st.lastStartLine) BackendCall.scrollCall
  let st2 := { st with lastStartLine := st.startLine }
  let r ← (refreshCoords st2.height st2.width).foldlM
    (refreshStep st2.doubleBuffer st2.startLine) (st2.screenBuffer, [])
  return ({ st2 with screenBuffer := r.1 }, scrollCalls ++ r.2)

/-- `_BufferedScreen.clear`: invoke `_change_colours(COLOUR_WHITE, 0, 0)`,
issue one physical `_clear`, then `_reset` the buffers and viewport. -/
def clearScreen (st : ScreenState) : ScreenState × List BackendCall :=
  (resetState st, [BackendCall.changeColours 7 0 0, BackendCall.clearCall])

/-- Number of physical `_scroll` invocations in a backend-call trace. -/
def countScrolls (tr : List BackendCall) : Nat :=
  tr.countP (fun c => c = BackendCall.scrollCall)

/-- `scroll()` applied `n` times. -/
def scrollN (st : ScreenState) (n : Nat) : ScreenState :=
  match n with
  | 0 => st
  | k + 1 => scroll (scrollN st k)

/-- A grid has exactly `h` rows, each of exactly `w` cells. -/
def WFgrid (g : List (List Cell)) (h w : Nat) : Prop :=
  g.length = h ∧ ∀ row ∈ g, row.length = w

/-- Well-formed screen state: both buffers have `buffer_height` rows of
`width` cells (true of every state the source can reach). -/
def WF (st : ScreenState) : Prop :=
  WFgrid st.screenBuffer st.bufferHeight st.width ∧
  WFgrid st.doubleBuffer st.bufferHeight st.width

instance (g : List (List Cell)) (h w : Nat) : Decidable (WFgrid g h w) := by
  unfold WFgrid; infer_instance

instance (st : ScreenState) : Decidable (WF st) := by
  unfold WF; infer_instance

/-- `Screen._8_palette`: the ANSI 8-colour RGB triples followed by
`[0x00 for _ in range(248 * 3)]` zero padding. -/
def palette8 : List Nat :=
  [ 0x00, 0x00, 0x00,
    0x80, 0x00, 0x00,
    0x00, 0x80, 0x00,
    0x80, 0x80, 0x00,
    0x00, 0x00, 0x80,
    0x80, 0x00, 0x80,
    0x00, 0x80, 0x80,
    0xc0, 0xc0, 0xc0] ++ List.replicate (248 * 3) 0x00
/-- `Screen._256_palette`: the 256-colour RGB palette, a flat list of 768
bytes (R, G, B per colour index). -/
def palette256 : List Nat :=
  [ 0x00, 0x00, 0x00, 0x80, 0x00, 0x00, 0x00, 0x80, 0x00, 0x80, 0x80, 0x00,
    0x00, 0x00, 0x80, 0x80, 0x00, 0x80, 0x00, 0x80, 0x80, 0xc0, 0xc0, 0xc0,
    0x80, 0x80, 0x80, 0xff, 0x00, 0x00, 0x00, 0xff, 0x00, 0xff, 0xff, 0x00,
    0x00, 0x00, 0xff, 0xff, 0x00, 0xff, 0x00, 0xff, 0xff, 0xff, 0xff, 0xff,
    0x00, 0x00, 0x00, 0x00, 0x00, 0x5f, 0x00, 0x00, 0x87, 0x00, 0x00, 0xaf,
    0x00, 0x00, 0xd7, 0x00, 0x00, 0xff, 0x00, 0x5f, 0x00, 0x00, 0x5f, 0x5f,
    0x00, 0x5f, 0x87, 0x00, 0x5f, 0xaf, 0x00, 0x5f, 0xd7, 0x00, 0x5f, 0xff,
    0x00, 0x87, 0x00, 0x00, 0x87, 0x5f, 0x00, 0x87, 0x87, 0x00, 0x87, 0xaf,
    0x00, 0x87, 0xd7, 0x00, 0x87, 0xff, 0x00, 0xaf, 0x00, 0x00, 0xaf, 0x5f,
    0x00, 0xaf, 0x87, 0x00, 0xaf, 0xaf, 0x00, 0xaf, 0xd7, 0x00, 0xaf, 0xff,
    0x00, 0xd7, 0x00, 0x00, 0xd7, 0x5f, 0x00, 0xd7, 0x87, 0x00, 0xd7, 0xaf,
    0x00, 0xd7, 0xd7, 0x00, 0xd7, 0xff, 0x00, 0xff, 0x00, 0x00, 0xff, 0x5f,
    0x00, 0xff, 0x87, 0x00, 0xff, 0xaf, 0x00, 0xff, 0xd7, 0x00, 0xff, 0xff,
    0x5f, 0x00, 0x00, 0x5f, 0x00, 0x5f, 0x5f, 0x00, 0x87, 0x5f, 0x00, 0xaf,
    0x5f, 0x00, 0xd7, 0x5f, 0x00, 0xff, 0x5f, 0x5f, 0x00, 0x5f, 0x5f, 0x5f,
    0x5f, 0x5f, 0x87, 0x5f, 0x5f, 0xaf, 0x5f, 0x5f, 0xd7, 0x5f, 0x5f, 0xff,
    0x5f, 0x87, 0x00, 0x5f, 0x87, 0x5f, 0x5f, 0x87, 0x87, 0x5f, 0x87, 0xaf,
    0x5f, 0x87, 0xd7, 0x5f, 0x87, 0xff, 0x5f, 0xaf, 0x00, 0x5f, 0xaf, 0x5f,
    0x5f, 0xaf, 0x87, 0x5f, 0xaf, 0xaf, 0x5f, 0xaf, 0xd7, 0x5f, 0xaf, 0xff,
    0x5f, 0xd7, 0x00, 0x5f, 0xd7, 0x5f, 0x5f, 0xd7, 0x87, 0x5f, 0xd7, 0xaf,
    0x5f, 0xd7, 0xd7, 0x5f, 0xd7, 0xff, 0x5f, 0xff, 0x00, 0x5f, 0xff, 0x5f,
    0x5f, 0xff, 0x87, 0x5f, 0xff, 0xaf, 0x5f, 0xff, 0xd7, 0x5f, 0xff, 0xff,
    0x87, 0x00, 0x00, 0x87, 0x00, 0x5f, 0x87, 0x00, 0x87, 0x87, 0x00, 0xaf,
    0x87, 0x00, 0xd7, 0x87, 0x00, 0xff, 0x87, 0x5f, 0x00, 0x87, 0x5f, 0x5f,
    0x87, 0x5f, 0x87, 0x87, 0x5f, 0xaf, 0x87, 0x5f, 0xd7, 0x87, 0x5f, 0xff,
    0x87, 0x87, 0x00, 0x87, 0x87, 0x5f, 0x87, 0x87, 0x87, 0x87, 0x87, 0xaf,
    0x87, 0x87, 0xd7, 0x87, 0x87, 0xff, 0x87, 0xaf, 0x00, 0x87, 0xaf, 0x5f,
    0x87, 0xaf, 0x87, 0x87, 0xaf, 0xaf, 0x87, 0xaf, 0xd7, 0x87, 0xaf, 0xff,
    0x87, 0xd7, 0x00, 0x87, 0xd7, 0x5f, 0x87, 0xd7, 0x87, 0x87, 0xd7, 0xaf,
    0x87, 0xd7, 0xd7, 0x87, 0xd7, 0xff, 0x87, 0xff, 0x00, 0x87, 0xff, 0x5f,
    0x87, 0xff, 0x87, 0x87, 0xff, 0xaf, 0x87, 0xff, 0xd7, 0x87, 0xff, 0xff,
    0xaf, 0x00, 0x00, 0xaf, 0x00, 0x5f, 0xaf, 0x00, 0x87, 0xaf, 0x00, 0xaf,
    0xaf, 0x00, 0xd7, 0xaf, 0x00, 0xff, 0xaf, 0x5f, 0x00, 0xaf, 0x5f, 0x5f,
    0xaf, 0x5f, 0x87, 0xaf, 0x5f, 0xaf, 0xaf, 0x5f, 0xd7, 0xaf, 0x5f, 0xff,
    0xaf, 0x87, 0x00, 0xaf, 0x87, 0x5f, 0xaf, 0x87, 0x87, 0xaf, 0x87, 0xaf,
    0xaf, 0x87, 0xd7, 0xaf, 0x87, 0xff, 0xaf, 0xaf, 0x00, 0xaf, 0xaf, 0x5f,
    0xaf, 0xaf, 0x87, 0xaf, 0xaf, 0xaf, 0xaf, 0xaf, 0xd7, 0xaf, 0xaf, 0xff,
    0xaf, 0xd7, 0x00, 0xaf, 0xd7, 0x5f, 0xaf, 0xd7, 0x87, 0xaf, 0xd7, 0xaf,
    0xaf, 0xd7, 0xd7, 0xaf, 0xd7, 0xff, 0xaf, 0xff, 0x00, 0xaf, 0xff, 0x5f,
    0xaf, 0xff, 0x87, 0xaf, 0xff, 0xaf, 0xaf, 0xff, 0xd7, 0xaf, 0xff, 0xff,
    0xd7, 0x00, 0x00, 0xd7, 0x00, 0x5f, 0xd7, 0x00, 0x87, 0xd7, 0x00, 0xaf,
    0xd7, 0x00, 0xd7, 0xd7, 0x00, 0xff, 0xd7, 0x5f, 0x00, 0xd7, 0x5f, 0x5f,
    0xd7, 0x5f, 0x87, 0xd7, 0x5f, 0xaf, 0xd7, 0x5f, 0xd7, 0xd7, 0x5f, 0xff,
    0xd7, 0x87, 0x00, 0xd7, 0x87, 0x5f, 0xd7, 0x87, 0x87, 0xd7, 0x87, 0xaf,
    0xd7, 0x87, 0xd7, 0xd7, 0x87, 0xff, 0xd7, 0xaf, 0x00, 0xd7, 0xaf, 0x5f,
    0xd7, 0xaf, 0x87, 0xd7, 0xaf, 0xaf, 0xd7, 0xaf, 0xd7, 0xd7, 0xaf, 0xff,
    0xd7, 0xd7, 0x00, 0xd7, 0xd7, 0x5f, 0xd7, 0xd7, 0x87, 0xd7, 0xd7, 0xaf,
    0xd7, 0xd7, 0xd7, 0xd7, 0xd7, 0xff, 0xd7, 0xff, 0x00, 0xd7, 0xff, 0x5f,
    0xd7, 0xff, 0x87, 0xd7, 0xff, 0xaf, 0xd7, 0xff, 0xd7, 0xd7, 0xff, 0xff,
    0xff, 0x00, 0x00, 0xff, 0x00, 0x5f, 0xff, 0x00, 0x87, 0xff, 0x00, 0xaf,
    0xff, 0x00, 0xd7, 0xff, 0x00, 0xff, 0xff, 0x5f, 0x00, 0xff, 0x5f, 0x5f,
    0xff, 0x5f, 0x87, 0xff, 0x5f, 0xaf, 0xff, 0x5f, 0xd7, 0xff, 0x5f, 0xff,
    0xff, 0x87, 0x00, 0xff, 0x87, 0x5f, 0xff, 0x87, 0x87, 0xff, 0x87, 0xaf,
    0xff, 0x87, 0xd7, 0xff, 0x87, 0xff, 0xff, 0xaf, 0x00, 0xff, 0xaf, 0x5f,
    0xff, 0xaf, 0x87, 0xff, 0xaf, 0xaf, 0xff, 0xaf, 0xd7, 0xff, 0xaf, 0xff,
    0xff, 0xd7, 0x00, 0xff, 0xd7, 0x5f, 0xff, 0xd7, 0x87, 0xff, 0xd7, 0xaf,
    0xff, 0xd7, 0xd7, 0xff, 0xd7, 0xff, 0xff, 0xff, 0x00, 0xff, 0xff, 0x5f,
    0xff, 0xff, 0x87, 0xff, 0xff, 0xaf, 0xff, 0xff, 0xd7, 0xff, 0xff, 0xff,
    0x08, 0x08, 0x08, 0x12, 0x12, 0x12, 0x1c, 0x1c, 0x1c, 0x26, 0x26, 0x26,
    0x30, 0x30, 0x30, 0x3a, 0x3a, 0x3a, 0x44, 0x44, 0x44, 0x4e, 0x4e, 0x4e,
    0x58, 0x58, 0x58, 0x62, 0x62, 0x62, 0x6c, 0x6c, 0x6c, 0x76, 0x76, 0x76,
    0x80, 0x80, 0x80, 0x8a, 0x8a, 0x8a, 0x94, 0x94, 0x94, 0x9e, 0x9e, 0x9e,
    0xa8, 0xa8, 0xa8, 0xb2, 0xb2, 0xb2, 0xbc, 0xbc, 0xbc, 0xc6, 0xc6, 0xc6,
    0xd0, 0xd0, 0xd0, 0xda, 0xda, 0xda, 0xe4, 0xe4, 0xe4, 0xee, 0xee, 0xee]

/-- `Screen.palette`: selects `_8_palette` when the active colour depth is
below 256 colours, `_256_palette` otherwise. -/
def palette (colours : Nat) : List Nat :=
  if colours < 256 then palette8 else palette256

/-- `Screen._line_chars = " ''^.|/7.\|Ywbd#"`: the 16 glyphs indexed by the
4-bit quadrant-coverage mask of the line rasterizer. -/
def lineChars : List Char :=
  [' ', '\'', '\'', '^', '.', '|', '/', '7',
   '.', '\\', '|', 'Y', 'w', 'b', 'd', '#']

/-- `Screen.move(x, y)`: sets the drawing cursor to
`(int(round(x, 1)) * 2, int(round(y, 1)) * 2)`. We embed integer inputs, on
which `int(round(v, 1))` is the identity. -/
def move (st : ScreenState) (x y : Int) : ScreenState :=
  { st with cursorX := some (x * 2), cursorY := some (y * 2) }

/-- Python `v & ~1` on an `int` (two's complement): clear the low bit,
i.e. round down to the nearest even, `2 * (v // 2)`. -/
def evenFloor (v : Int) : Int := 2 * Int.fdiv v 2

/-- Accumulator of the inner `for ix in x_range` loop of `Screen.draw`
(major axis x): `(next_chars[0], next_chars[1], err, x, y)`. -/
abbrev DrawAcc := Nat × Nat × Int × Int × Int

/-- Body of the inner `for ix in x_range` loop of `Screen.draw` when
`dx > dy`: accumulate the quadrant bits `2 ** ix * 4 ** (y % 2)` into
`next_chars[0]` (cell row `py`) or `next_chars[1]` (the carried row), add
the non-`thin` anti-aliasing bit for `y + sy`, update the error term, and
step `x` by `sx`. `py` is fixed at the start of the outer iteration. -/
def innerStepX (thin : Bool) (sx sy : Int) (dx dy : Nat) (py : Int)
    (acc : DrawAcc) (ix : Nat) : DrawAcc :=
  let (n0, n1, err, x, y) := acc
  let bit := 2 ^ ix * 4 ^ ((y % 2).toNat)
  let (n0, n1) :=
    if y ≥ py ∧ y - py < 2 then (n0 ||| bit, n1) else (n0, n1 ||| bit)
  let (n0, n1) :=
    if thin = false then
      let bit2 := 2 ^ ix * 4 ^ (((y + sy) % 2).toNat)
      if y + sy ≥ py ∧ y + sy - py < 2 then (n0 ||| bit2, n1)
      else (n0, n1 ||| bit2)
    else (n0, n1)
  let err := err - 2 * (dy : Int)
  let (y, err) := if err < 0 then (y + sy, err + 2 * (dx : Int)) else (y, err)
  (n0, n1, err, x + sx, y)

/-- Body of the inner `for iy in y_range` loop of `Screen.draw` when
`dx <= dy` (major axis y): symmetric to `innerStepX` with the roles of the
axes swapped (`2 ** (x % 2) * 4 ** iy`). -/
def innerStepY (thin : Bool) (sx sy : Int) (dx dy : Nat) (px : Int)
    (acc : DrawAcc) (iy : Nat) : DrawAcc :=
  let (n0, n1, err, x, y) := acc
  let bit := 2 ^ ((x % 2).toNat) * 4 ^ iy
  let (n0, n1) :=
    if x ≥ px ∧ x - px < 2 then (n0 ||| bit, n1) else (n0, n1 ||| bit)
  let (n0, n1) :=
    if thin = false then
      let bit2 := 2 ^ (((x + sx) % 2).toNat) * 4 ^ iy
      if x + sx ≥ px ∧ x + sx - px < 2 then (n0 ||| bit2, n1)
      else (n0, n1 ||| bit2)
    else (n0, n1)
  let err := err - 2 * (dx : Int)
  let (x, err) := if err < 0 then (x + sx, err + 2 * (dy : Int)) else (x, err)
  (n0, n1, err, x, y + sy)

/-- The writes performed at the end of one outer iteration of `Screen.draw`
when `dx > dy`: glyph selection from `next_chars` when `char is None`, two
blank cells (primary and the cell carried in the `sy` direction) when
`char == " "`, otherwise `char` verbatim at the primary cell only. -/
def drawWriteX (st : ScreenState) (ch : Option Char) (colour bg : Int)
    (sy px py : Int) (n0 n1 : Nat) : Option ScreenState :=
  match ch with
  | none => do
    let g0 ← lineChars.get? n0
    let st ← printAt st [g0] (Int.fdiv px 2) (Int.fdiv py 2) colour 0 bg false
    if n1 ≠ 0 then do
      let g1 ← lineChars.get? n1
      printAt st [g1] (Int.fdiv px 2) (Int.fdiv py 2 + sy) colour 0 bg false
    else some st
  | some c =>
    if c = ' ' then do
      let st ← printAt st [c] (Int.fdiv px 2) (Int.fdiv py 2) 7 0 bg false
      printAt st [c] (Int.fdiv px 2) (Int.fdiv py 2 + sy) 7 0 bg false
    else
      printAt st [c] (Int.fdiv px 2) (Int.fdiv py 2) colour 0 bg false

/-- The writes at the end of one outer iteration of `Screen.draw` when
`dx <= dy`: the carried cell lies in the `sx` direction. -/
def drawWriteY (st : ScreenState) (ch : Option Char) (colour bg : Int)
    (sx px py : Int) (n0 n1 : Nat) : Option ScreenState :=
  match ch with
  | none => do
    let g0 ← lineChars.get? n0
    let st ← printAt st [g0] (Int.fdiv px 2) (Int.fdiv py 2) colour 0 bg false
    if n1 ≠ 0 then do
      let g1 ← lineChars.get? n1
      printAt st [g1] (Int.fdiv px 2 + sx) (Int.fdiv py 2) colour 0 bg false
    else some st
  | some c =>
    if c = ' ' then do
      let st ← printAt st [c] (Int.fdiv px 2) (Int.fdiv py 2) 7 0 bg false
      printAt st [c] (Int.fdiv px 2 + sx) (Int.fdiv py 2) 7 0 bg false
    else
      printAt st [c] (Int.fdiv px 2) (Int.fdiv py 2) colour 0 bg false

/-- The outer `while x != x1` loop of `Screen.draw` for `dx > dy`. Both
`x` and `x1` are even (every coordinate is doubled) and each outer
iteration advances `x` by `sx` exactly twice, so the loop runs exactly
`dx / 2` times; `fuel` is that iteration count. -/
def drawLoopX (thin : Bool) (sx sy : Int) (dx dy : Nat)
    (ch : Option Char) (colour bg : Int) (xRange : List Nat)
    (fuel : Nat) (x y err : Int) (st : ScreenState) : Option ScreenState :=
  match fuel with
  | 0 => some st
  | fuel + 1 =>
    let px := evenFloor x
    let py := evenFloor y
    let r := xRange.foldl (innerStepX thin sx sy dx dy py) (0, 0, err, x, y)
    (drawWriteX st ch colour bg sy px py r.1 r.2.1).bind
      (drawLoopX thin sx sy dx dy ch colour bg xRange fuel r.2.2.2.1 r.2.2.2.2
        r.2.2.1)

/-- The outer `while y != y1` loop of `Screen.draw` for `dx <= dy`; runs
exactly `dy / 2` times. -/
def drawLoopY (thin : Bool) (sx sy : Int) (dx dy : Nat)
    (ch : Option Char) (colour bg : Int) (yRange : List Nat)
    (fuel : Nat) (x y err : Int) (st : ScreenState) : Option ScreenState :=
  match fuel with
  | 0 => some st
  | fuel + 1 =>
    let px := evenFloor x
    let py := evenFloor y
    let r := yRange.foldl (innerStepY thin sx sy dx dy px) (0, 0, err, x, y)
    (drawWriteY st ch colour bg sx px py r.1 r.2.1).bind
      (drawLoopY thin sx sy dx dy ch colour bg yRange fuel r.2.2.2.1 r.2.2.2.2
        r.2.2.1)

/-- `Screen.draw(x, y, char, colour, bg, thin)`: rasterize a line from the
drawing cursor to `(x*2, y*2)` in sub-cell space (integer inputs; `none`
models the `TypeError` of an unset cursor), update the cursor to the
endpoint, then run the modified Bresenham loop over the major axis. -/
def draw (st : ScreenState) (x y : Int) (ch : Option Char)
    (colour bg : Int) (thin : Bool) : Option ScreenState := do
  let x0 ← st.cursorX
  let y0 ← st.cursorY
  let x1 := x * 2
  let y1 := y * 2
  let st := { st with cursorX := some x1, cursorY := some y1 }
  let dx := (x1 - x0).natAbs
  let dy := (y1 - y0).natAbs
  let sx : Int := if x0 > x1 then -1 else 1
  let sy : Int := if y0 > y1 then -1 else 1
  let xRange : List Nat := if sx > 0 then [0, 1] else [1, 0]
  let yRange : List Nat := if sy > 0 then [0, 1] else [1, 0]
  if dx > dy then
    drawLoopX thin sx sy dx dy ch colour bg xRange (dx / 2) x0 y0 (dx : Int) st
  else
    drawLoopY thin sx sy dx dy ch colour bg yRange (dy / 2) x0 y0 (dy : Int) st

/-- One entry of a `paint` colour map: a Python tuple of up to three
optional components `(colour, attr, bg)`, modelled as a list of optionals
(the source checks `len(...) > k` and `... is not None` separately). -/
abbrev ColourMapEntry := List (Option Int)

/-- One iteration of the `for i, c in enumerate(text)` loop of
`Screen.paint` with a colour map: any present component of `colour_map[i]`
overrides the running colour/attr/bg (sticky override, carried in the
accumulator), then the single character is printed. `colour_map[i]` out of
range raises `IndexError` (`none`). -/
def paintStep (x y : Int) (transparent : Bool) (cm : List ColourMapEntry)
    (acc : ScreenState × Int × Int × Int) (ic : Nat × Char) :
    Option (ScreenState × Int × Int × Int) := do
  let entry ← pyGetNat cm ic.1
  let colour := match entry.get? 0 with
    | some (some v) => v
    | _ => acc.2.1
  let attr := match entry.get? 1 with
    | some (some v) => v
    | _ => acc.2.2.1
  let bg := match entry.get? 2 with
    | some (some v) => v
    | _ => acc.2.2.2
  let st ← printAt acc.1 [ic.2] (x + ic.1) y colour attr bg transparent
  return (st, colour, attr, bg)

/-- `Screen.paint(text, x, y, colour, attr, bg, transparent, colour_map)`:
without a colour map this is `print_at`; with one, each character is
printed individually through `paintStep`. -/
def paint (st : ScreenState) (text : List Char) (x y : Int)
    (colour attr bg : Int) (transparent : Bool)
    (colourMap : Option (List ColourMapEntry)) : Option ScreenState :=
  match colourMap with
  | none => printAt st text x y colour attr bg transparent
  | some cm =>
    (text.enum.foldlM (paintStep x y transparent cm)
      (st, colour, attr, bg)).map
      (fun (acc : ScreenState × Int × Int × Int) => acc.1)

/-- `Screen.centre(text, y, colour, attr, colour_map)`: computes
`x = (width - len(text)) // 2` (Python floor division) and delegates to
`paint` with the default background and transparency. -/
def centre (st : ScreenState) (text : List Char) (y : Int)
    (colour attr : Int) (colourMap : Option (List ColourMapEntry)) :
    Option ScreenState :=
  paint st text (Int.fdiv ((st.width : Int) - text.length) 2) y
    colour attr 0 false colourMap

/-- A drawing call with no intervening `refresh()` or `clear()`. -/
inductive DrawOp where
  | printOp (text : List Char) (x y colour attr bg : Int) (transparent : Bool)
  | paintOp (text : List Char) (x y colour attr bg : Int) (transparent : Bool)
      (colourMap : Option (List ColourMapEntry))
  | centreOp (text : List Char) (y colour attr : Int)
      (colourMap : Option (List ColourMapEntry))
  | moveOp (x y : Int)
  | drawOp (x y : Int) (ch : Option Char) (colour bg : Int) (thin : Bool)

/-- Execute one drawing call. -/
def applyOp (st : ScreenState) : DrawOp → Option ScreenState
  | DrawOp.printOp text x y colour attr bg transparent =>
      printAt st text x y colour attr bg transparent
  | DrawOp.paintOp text x y colour attr bg transparent cm =>
      paint st text x y colour attr bg transparent cm
  | DrawOp.centreOp text y colour attr cm => centre st text y colour attr cm
  | DrawOp.moveOp x y => some (move st x y)
  | DrawOp.drawOp x y ch colour bg thin => draw st x y ch colour bg thin

/-- Execute a sequence of drawing calls. -/
def applyOps (st : ScreenState) (ops : List DrawOp) : Option ScreenState :=
  ops.foldlM applyOp st

/-- The next call made by the body of `Screen.putch`: the body is the single
statement `self.putch(text, x, y, colour, attr, bg, transparent)`. -/
inductive PutchCall where
  | toPutch (text : List Char) (x y colour attr bg : Int) (transparent : Bool)
  | toPrintAt (text : List Char) (x y colour attr bg : Int) (transparent : Bool)
deriving DecidableEq

/-- The body of `Screen.putch(text, x, y, colour, attr, bg, transparent)`:
it re-invokes `self.putch` with exactly its own arguments (it does not
delegate to `print_at`). -/
def putchBody (text : List Char) (x y colour attr bg : Int)
    (transparent : Bool) : PutchCall :=
  PutchCall.toPutch text x y colour attr bg transparent

/-- Fuel-bounded evaluation of a `putch` call: each unfolding consumes one
unit of fuel and follows the single call the body makes; a call that
delegated to `print_at` would return. `none` means the call did not
complete within the given fuel. -/
def putchEval : Nat → List Char → Int → Int → Int → Int → Int → Bool →
    Option Unit
  | 0, _, _, _, _, _, _, _ => none
  | fuel + 1, text, x, y, colour, attr, bg, transparent =>
    match putchBody text x y colour attr bg transparent with
    | PutchCall.toPutch t a b c d e f => putchEval fuel t a b c d e f
    | PutchCall.toPrintAt _ _ _ _ _ _ _ => some ()

/-- Resize-detection state of `_WindowsScreen`: the window dimensions seen
at the previous `has_resized` call (`None` until the first call). -/
structure WinResizeState where
  lastWidth : Option Int
  lastHeight : Option Int
deriving DecidableEq, Repr

/-- `_WindowsScreen.has_resized`: poll the current window dimensions,
report a resize iff a previous poll recorded dimensions and they differ
from the current ones, then record the current dimensions. -/
def windowsHasResized (st : WinResizeState) (width height : Int) :
    Bool × WinResizeState :=
  let reSized :=
    st.lastWidth.isSome &&
      (decide (some width ≠ st.lastWidth) || decide (some height ≠ st.lastHeight))
  (reSized, ⟨some width, some height⟩)

/-- `_CursesScreen.has_resized` (identical in `_BlessedScreen`): return the
signal-set `_re_sized` flag and clear it. The state is the flag itself. -/
def cursesHasResized (reSized : Bool) : Bool × Bool :=
  (reSized, false)

/-- The `SIGWINCH` handler of `_CursesScreen` / `_BlessedScreen`: sets the
`_re_sized` flag. -/
def cursesResizeSignal (_reSized : Bool) : Bool :=
  true

/-! ### Basic lemmas about the Python list model -/

theorem pySetNat_some {α : Type} {l l' : List α} {i : Nat} {a : α}
    (h : pySetNat l i a = some l') : l' = l.set i a ∧ i < l.length := by
  unfold pySetNat at h
  split at h
  · exact ⟨(Option.some.injEq _ _ ▸ h).symm, by assumption⟩
  · exact absurd h (by simp)

theorem pySetNat_of_lt {α : Type} {l : List α} {i : Nat} (a : α)
    (h : i < l.length) : pySetNat l i a = some (l.set i a) := by
  unfold pySetNat
  simp [h]

theorem pySet2_some {g g' : List (List Cell)} {r c : Nat} {a : Cell}
    (h : pySet2 g r c a = some g') :
    ∃ row, g[r]? = some row ∧ c < row.length ∧
      g' = g.set r (row.set c a) := by
  unfold pySet2 at h
  cases hrow : g[r]? with
  | none => rw [hrow] at h; exact absurd h (by simp)
  | some row =>
    rw [hrow] at h
    simp only [Option.bind_eq_bind, Option.some_bind] at h
    cases hset : pySetNat row c a with
    | none => rw [hset] at h; exact absurd h (by simp)
    | some row2 =>
      rw [hset] at h
      simp only [Option.bind_eq_bind, Option.some_bind] at h
      obtain ⟨hrow2, hc⟩ := pySetNat_some hset
      obtain ⟨hg', _⟩ := pySetNat_some h
      exact ⟨row, rfl, hc, by rw [hg', hrow2]⟩

theorem pySet2_of_lt {g : List (List Cell)} {r c : Nat} {row : List Cell}
    (a : Cell) (hrow : g[r]? = some row) (hc : c < row.length) :
    pySet2 g r c a = some (g.set r (row.set c a)) := by
  have hr : r < g.length := (List.getElem?_eq_some.mp hrow).1
  unfold pySet2
  rw [hrow]
  simp only [Option.bind_eq_bind, Option.some_bind, pySetNat_of_lt a hc]
  exact pySetNat_of_lt _ (by simpa using hr)

theorem cell2_set_self {g : List (List Cell)} {r c : Nat} {row : List Cell}
    (a : Cell) (hrow : g[r]? = some row) (hc : c < row.length) :
    cell2 (g.set r (row.set c a)) r c = some a := by
  have h1 : (g.set r (row.set c a))[r]? = some (row.set c a) := by
    rw [List.getElem?_set_self', hrow]; rfl
  have h2 : (row.set c a)[c]? = some a := by
    rw [List.getElem?_set_self', List.getElem?_eq_getElem hc]; rfl
  unfold cell2
  rw [h1]
  simpa using h2

theorem cell2_set_ne {g : List (List Cell)} {r c r' c' : Nat}
    {row : List Cell} (a : Cell) (hrow : g[r]? = some row)
    (hne : r' ≠ r ∨ c' ≠ c) :
    cell2 (g.set r (row.set c a)) r' c' = cell2 g r' c' := by
  unfold cell2
  rcases hne with hne | hne
  · rw [List.getElem?_set_ne (Ne.symm hne)]
  · by_cases hr : r' = r
    · rw [hr]
      have h1 : (g.set r (row.set c a))[r]? = some (row.set c a) := by
        rw [List.getElem?_set_self', hrow]; rfl
      rw [h1, hrow]
      simp only [Option.some_bind]
      rw [List.getElem?_set_ne (Ne.symm hne)]
    · rw [List.getElem?_set_ne (Ne.symm hr)]

theorem WFgrid_set {g : List (List Cell)} {h w r c : Nat} {row : List Cell}
    (a : Cell) (hwf : WFgrid g h w) (hrow : g[r]? = some row) :
    WFgrid (g.set r (row.set c a)) h w := by
  obtain ⟨hlen, hrows⟩ := hwf
  refine ⟨by simpa using hlen, ?_⟩
  intro row2 hmem
  rcases List.mem_or_eq_of_mem_set hmem with hmem | heq
  · exact hrows _ hmem
  · subst heq
    simpa using hrows _ (List.getElem?_mem hrow)

theorem WFgrid_row_len {g : List (List Cell)} {h w r : Nat}
    {row : List Cell} (hwf : WFgrid g h w) (hrow : g[r]? = some row) :
    row.length = w :=
  hwf.2 _ (List.getElem?_mem hrow)

theorem WFgrid_row_exists {g : List (List Cell)} {h w r : Nat}
    (hwf : WFgrid g h w) (hr : r < h) :
    ∃ row, g[r]? = some row ∧ row.length = w := by
  cases hrow : g[r]? with
  | none =>
    rw [List.getElem?_eq_none_iff] at hrow
    have := hwf.1
    exact absurd hr (by omega)
  | some row => exact ⟨row, rfl, WFgrid_row_len hwf hrow⟩

theorem cell2_eq_some {g : List (List Cell)} {h w r c : Nat}
    (hwf : WFgrid g h w) (hr : r < h) (hc : c < w) :
    ∃ cell, cell2 g r c = some cell := by
  obtain ⟨row, hrow, hlen⟩ := WFgrid_row_exists hwf hr
  refine ⟨row.get ⟨c, hlen ▸ hc⟩, ?_⟩
  unfold cell2
  rw [hrow]
  simp [List.getElem?_eq_getElem (hlen ▸ hc), List.get_eq_getElem]

/-! ### Lemmas about the diff loop of `refresh` -/

theorem refreshStep_cases {db : List (List Cell)} {s : Nat}
    {sb : List (List Cell)} {t : List BackendCall} {y x : Nat}
    {sb' : List (List Cell)} {t' : List BackendCall}
    (h : refreshStep db s (sb, t) (y, x) = some (sb', t')) :
    ∃ row newCell srow oldCell,
      db[y + s]? = some row ∧ row[x]? = some newCell ∧
      sb[y + s]? = some srow ∧ srow[x]? = some oldCell ∧
      ((oldCell ≠ newCell ∧ sb' = sb.set (y + s) (srow.set x newCell) ∧
          t' = t ++
            [BackendCall.changeColours newCell.fg newCell.attr newCell.bg,
             BackendCall.printCall [newCell.ch] x y]) ∨
        (oldCell = newCell ∧ sb' = sb ∧ t' = t)) := by
  unfold refreshStep at h
  dsimp only at h
  cases h1 : db[y + s]? with
  | none => rw [h1] at h; exact absurd h (by simp)
  | some row =>
  rw [h1] at h
  simp only [Option.bind_eq_bind, Option.some_bind] at h
  cases h2 : row[x]? with
  | none => rw [h2] at h; exact absurd h (by simp)
  | some newCell =>
  rw [h2] at h
  simp only [Option.some_bind] at h
  cases h3 : sb[y + s]? with
  | none => rw [h3] at h; exact absurd h (by simp)
  | some srow =>
  rw [h3] at h
  simp only [Option.some_bind] at h
  cases h4 : srow[x]? with
  | none => rw [h4] at h; exact absurd h (by simp)
  | some oldCell =>
  rw [h4] at h
  simp only [Option.some_bind] at h
  refine ⟨row, newCell, srow, oldCell, rfl, h2, rfl, h4, ?_⟩
  by_cases hc : oldCell = newCell
  · right
    rw [if_neg (by simpa using hc)] at h
    simp only [Option.pure_def, Option.some.injEq, Prod.mk.injEq] at h
    exact ⟨hc, h.1.symm, h.2.symm⟩
  · left
    rw [if_pos hc] at h
    have h5 : x < srow.length := (List.getElem?_eq_some.mp h4).1
    rw [pySet2_of_lt newCell h3 h5] at h
    simp only [Option.pure_def, Option.some_bind, Option.some.injEq,
      Prod.mk.injEq] at h
    exact ⟨hc, h.1.symm, h.2.symm⟩

theorem refreshStep_frame {db : List (List Cell)} {s : Nat}
    {sb : List (List Cell)} {t : List BackendCall} {y x : Nat}
    {sb' : List (List Cell)} {t' : List BackendCall}
    (h : refreshStep db s (sb, t) (y, x) = some (sb', t'))
    (r c : Nat) (hne : r ≠ y + s ∨ c ≠ x) :
    cell2 sb' r c = cell2 sb r c := by
  obtain ⟨row, newCell, srow, oldCell, _, _, h3, _, hcases⟩ :=
    refreshStep_cases h
  rcases hcases with ⟨_, hsb, _⟩ | ⟨_, hsb, _⟩
  · rw [hsb]
    exact cell2_set_ne newCell h3 hne
  · rw [hsb]

theorem refreshStep_post {db : List (List Cell)} {s : Nat}
    {sb : List (List Cell)} {t : List BackendCall} {y x : Nat}
    {sb' : List (List Cell)} {t' : List BackendCall}
    (h : refreshStep db s (sb, t) (y, x) = some (sb', t')) :
    cell2 sb' (y + s) x = cell2 db (y + s) x := by
  obtain ⟨row, newCell, srow, oldCell, h1, h2, h3, h4, hcases⟩ :=
    refreshStep_cases h
  have hdb : cell2 db (y + s) x = some newCell := by
    unfold cell2; rw [h1]; simpa using h2
  rcases hcases with ⟨_, hsb, _⟩ | ⟨heq, hsb, _⟩
  · rw [hsb, hdb]
    exact cell2_set_self newCell h3 (List.getElem?_eq_some.mp h4).1
  · rw [hsb, hdb]
    unfold cell2; rw [h3]
    simpa [heq] using h4

theorem refreshStep_wf {db : List (List Cell)} {s h w : Nat}
    {sb : List (List Cell)} {t : List BackendCall} {y x : Nat}
    {sb' : List (List Cell)} {t' : List BackendCall}
    (hstep : refreshStep db s (sb, t) (y, x) = some (sb', t'))
    (hwf : WFgrid sb h w) : WFgrid sb' h w := by
  obtain ⟨row, newCell, srow, oldCell, _, _, h3, _, hcases⟩ :=
    refreshStep_cases hstep
  rcases hcases with ⟨_, hsb, _⟩ | ⟨_, hsb, _⟩
  · rw [hsb]; exact WFgrid_set newCell hwf h3
  · rw [hsb]; exact hwf

theorem refreshStep_trace {db : List (List Cell)} {s : Nat}
    {sb : List (List Cell)} {t : List BackendCall} {y x : Nat}
    {sb' : List (List Cell)} {t' : List BackendCall}
    (h : refreshStep db s (sb, t) (y, x) = some (sb', t')) :
    countScrolls t' = countScrolls t := by
  obtain ⟨row, newCell, srow, oldCell, _, _, _, _, hcases⟩ :=
    refreshStep_cases h
  rcases hcases with ⟨_, _, ht⟩ | ⟨_, _, ht⟩
  · rw [ht]
    unfold countScrolls
    rw [List.countP_append]
    simp [List.countP_cons]
  · rw [ht]

theorem refreshStep_complete {db : List (List Cell)} {s h w : Nat}
    {sb : List (List Cell)} (t : List BackendCall) {y x : Nat}
    (hwfs : WFgrid sb h w) (hwfd : WFgrid db h w)
    (hy : y + s < h) (hx : x < w) :
    ∃ sb' t', refreshStep db s (sb, t) (y, x) = some (sb', t') := by
  obtain ⟨row, hrow, hrowlen⟩ := WFgrid_row_exists hwfd hy
  obtain ⟨srow, hsrow, hsrowlen⟩ := WFgrid_row_exists hwfs hy
  obtain ⟨newCell, hnew⟩ : ∃ v, row[x]? = some v :=
    ⟨row.get ⟨x, hrowlen ▸ hx⟩, by
      simp [List.getElem?_eq_getElem (hrowlen ▸ hx), List.get_eq_getElem]⟩
  obtain ⟨oldCell, hold⟩ : ∃ v, srow[x]? = some v :=
    ⟨srow.get ⟨x, hsrowlen ▸ hx⟩, by
      simp [List.getElem?_eq_getElem (hsrowlen ▸ hx), List.get_eq_getElem]⟩
  unfold refreshStep
  dsimp only
  rw [hrow]
  simp only [Option.bind_eq_bind, Option.some_bind]
  rw [hnew]
  simp only [Option.some_bind]
  rw [hsrow]
  simp only [Option.some_bind]
  rw [hold]
  simp only [Option.some_bind]
  by_cases hc : oldCell = newCell
  · rw [if_neg (by simpa using hc)]
    exact ⟨sb, t, rfl⟩
  · rw [if_pos hc, pySet2_of_lt newCell hsrow (hsrowlen ▸ hx)]
    simp only [Option.some_bind]
    exact ⟨_, _, rfl⟩

theorem refreshFold_pres {db : List (List Cell)} {s : Nat} :
    ∀ (l : List (Nat × Nat)) (sb : List (List Cell)) (t : List BackendCall)
      (sb' : List (List Cell)) (t' : List BackendCall),
      l.foldlM (refreshStep db s) (sb, t) = some (sb', t') →
      ∀ r c, cell2 sb r c = cell2 db r c → cell2 sb' r c = cell2 db r c := by
  intro l
  induction l with
  | nil =>
    intro sb t sb' t' h r c hrc
    simp only [List.foldlM_nil, Option.pure_def, Option.some.injEq,
      Prod.mk.injEq] at h
    rw [← h.1]
    exact hrc
  | cons p l ih =>
    intro sb t sb' t' h r c hrc
    rw [List.foldlM_cons] at h
    cases hstep : refreshStep db s (sb, t) p with
    | none => rw [hstep] at h; exact absurd h (by simp)
    | some acc1 =>
      rw [hstep] at h
      simp only [Option.bind_eq_bind, Option.some_bind] at h
      obtain ⟨y, x⟩ := p
      obtain ⟨sb1, t1⟩ := acc1
      refine ih sb1 t1 sb' t' h r c ?_
      by_cases hpos : r = y + s ∧ c = x
      · rw [hpos.1, hpos.2]
        exact refreshStep_post hstep
      · rw [refreshStep_frame hstep r c (by tauto)]
        exact hrc

theorem refreshFold_post {db : List (List Cell)} {s : Nat} :
    ∀ (l : List (Nat × Nat)) (sb : List (List Cell)) (t : List BackendCall)
      (sb' : List (List Cell)) (t' : List BackendCall),
      l.foldlM (refreshStep db s) (sb, t) = some (sb', t') →
      ∀ y x, (y, x) ∈ l → cell2 sb' (y + s) x = cell2 db (y + s) x := by
  intro l
  induction l with
  | nil =>
    intro sb t sb' t' _ y x hmem
    exact absurd hmem (by simp)
  | cons p l ih =>
    intro sb t sb' t' h y x hmem
    rw [List.foldlM_cons] at h
    cases hstep : refreshStep db s (sb, t) p with
    | none => rw [hstep] at h; exact absurd h (by simp)
    | some acc1 =>
      rw [hstep] at h
      simp only [Option.bind_eq_bind, Option.some_bind] at h
      obtain ⟨y0, x0⟩ := p
      obtain ⟨sb1, t1⟩ := acc1
      rcases List.mem_cons.mp hmem with heq | hmem
      · obtain ⟨hy, hx⟩ := Prod.mk.injEq .. ▸ heq
        subst hy; subst hx
        exact refreshFold_pres l sb1 t1 sb' t' h (y + s) x
          (refreshStep_post hstep)
      · exact ih sb1 t1 sb' t' h y x hmem

theorem refreshFold_trace {db : List (List Cell)} {s : Nat} :
    ∀ (l : List (Nat × Nat)) (sb : List (List Cell)) (t : List BackendCall)
      (sb' : List (List Cell)) (t' : List BackendCall),
      l.foldlM (refreshStep db s) (sb, t) = some (sb', t') →
      countScrolls t' = countScrolls t := by
  intro l
  induction l with
  | nil =>
    intro sb t sb' t' h
    simp only [List.foldlM_nil, Option.pure_def, Option.some.injEq,
      Prod.mk.injEq] at h
    rw [← h.2]
  | cons p l ih =>
    intro sb t sb' t' h
    rw [List.foldlM_cons] at h
    cases hstep : refreshStep db s (sb, t) p with
    | none => rw [hstep] at h; exact absurd h (by simp)
    | some acc1 =>
      rw [hstep] at h
      simp only [Option.bind_eq_bind, Option.some_bind] at h
      obtain ⟨y0, x0⟩ := p
      obtain ⟨sb1, t1⟩ := acc1
      rw [ih sb1 t1 sb' t' h]
      exact refreshStep_trace hstep

theorem refreshFold_complete {db : List (List Cell)} {s h w : Nat} :
    ∀ (l : List (Nat × Nat)) (sb : List (List Cell)) (t : List BackendCall),
      WFgrid sb h w → WFgrid db h w →
      (∀ p ∈ l, p.1 + s < h ∧ p.2 < w) →
      ∃ sb' t', l.foldlM (refreshStep db s) (sb, t) = some (sb', t') ∧
        WFgrid sb' h w := by
  intro l
  induction l with
  | nil =>
    intro sb t hwfs _ _
    exact ⟨sb, t, by simp, hwfs⟩
  | cons p l ih =>
    intro sb t hwfs hwfd hmem
    obtain ⟨y, x⟩ := p
    obtain ⟨sb1, t1, hstep⟩ :=
      refreshStep_complete t hwfs hwfd (hmem (y, x) (by simp)).1
        (hmem (y, x) (by simp)).2
    obtain ⟨sb', t', hfold, hwf'⟩ :=
      ih sb1 t1 (refreshStep_wf hstep hwfs) hwfd
        (fun q hq => hmem q (List.mem_cons_of_mem _ hq))
    refine ⟨sb', t', ?_, hwf'⟩
    rw [List.foldlM_cons, hstep]
    simpa using hfold

theorem mem_refreshCoords {h w y x : Nat} :
    (y, x) ∈ refreshCoords h w ↔ y < h ∧ x < w := by
  unfold refreshCoords
  simp only [List.mem_flatMap, List.mem_map, List.mem_range, Prod.mk.injEq]
  constructor
  · rintro ⟨a, ha, b, hb, hay, hbx⟩
    exact ⟨hay ▸ ha, hbx ▸ hb⟩
  · rintro ⟨hy, hx⟩
    exact ⟨y, hy, x, hx, rfl, rfl⟩

theorem countScrolls_append (t1 t2 : List BackendCall) :
    countScrolls (t1 ++ t2) = countScrolls t1 + countScrolls t2 := by
  unfold countScrolls
  exact List.countP_append _ _ _

theorem countScrolls_replicate (n : Nat) :
    countScrolls (List.replicate n BackendCall.scrollCall) = n := by
  induction n with
  | zero => rfl
  | succ k ih =>
    rw [List.replicate_succ]
    unfold countScrolls at ih ⊢
    rw [List.countP_cons]
    simp [ih]

theorem refresh_some_eq {st st' : ScreenState} {tr : List BackendCall}
    (h : refresh st = some (st', tr)) :
    ∃ sb tr2,
      (refreshCoords st.height st.width).foldlM
          (refreshStep st.doubleBuffer st.startLine) (st.screenBuffer, []) =
        some (sb, tr2) ∧
      st' = { st with lastStartLine := st.startLine, screenBuffer := sb } ∧
      tr = List.replicate (st.startLine - st.lastStartLine)
          BackendCall.scrollCall ++ tr2 := by
  unfold refresh at h
  dsimp only at h
  cases hfold : (refreshCoords st.height st.width).foldlM
      (refreshStep st.doubleBuffer st.startLine) (st.screenBuffer, []) with
  | none => rw [hfold] at h; exact absurd h (by simp)
  | some r =>
    rw [hfold] at h
    simp only [Option.bind_eq_bind, Option.some_bind, Option.pure_def,
      Option.some.injEq, Prod.mk.injEq] at h
    exact ⟨r.1, r.2, rfl, h.1.symm, h.2.symm⟩

theorem refresh_complete {st : ScreenState} (hwf : WF st)
    (hvp : st.startLine + st.height ≤ st.bufferHeight) :
    ∃ st' tr, refresh st = some (st', tr) ∧ WF st' := by
  obtain ⟨sb', tr2, hfold, hwf'⟩ :=
    refreshFold_complete (s := st.startLine) (h := st.bufferHeight)
      (w := st.width)
      (refreshCoords st.height st.width) st.screenBuffer [] hwf.1 hwf.2
      (fun p hp => by
        obtain ⟨y, x⟩ := p
        obtain ⟨hy, hx⟩ := mem_refreshCoords.mp hp
        exact ⟨by omega, hx⟩)
  refine ⟨{ st with lastStartLine := st.startLine, screenBuffer := sb' },
    List.replicate (st.startLine - st.lastStartLine)
        BackendCall.scrollCall ++ tr2, ?_, hwf', hwf.2⟩
  unfold refresh
  dsimp only
  rw [hfold]
  simp

theorem refresh_fields {st st' : ScreenState} {tr : List BackendCall}
    (h : refresh st = some (st', tr)) :
    st'.doubleBuffer = st.doubleBuffer ∧ st'.startLine = st.startLine ∧
    st'.lastStartLine = st.startLine ∧ st'.height = st.height ∧
    st'.width = st.width ∧ st'.bufferHeight = st.bufferHeight := by
  obtain ⟨sb, tr2, _, hst, _⟩ := refresh_some_eq h
  rw [hst]
  exact ⟨rfl, rfl, rfl, rfl, rfl, rfl⟩

theorem refresh_viewport {st st' : ScreenState} {tr : List BackendCall}
    (h : refresh st = some (st', tr)) :
    ∀ y x, y < st.height → x < st.width →
      cell2 st'.screenBuffer (y + st.startLine) x =
        cell2 st.doubleBuffer (y + st.startLine) x := by
  obtain ⟨sb, tr2, hfold, hst, _⟩ := refresh_some_eq h
  intro y x hy hx
  rw [hst]
  exact refreshFold_post _ _ _ _ _ hfold y x (mem_refreshCoords.mpr ⟨hy, hx⟩)

theorem refresh_scroll_count {st st' : ScreenState} {tr : List BackendCall}
    (h : refresh st = some (st', tr)) :
    countScrolls tr = st.startLine - st.lastStartLine := by
  obtain ⟨sb, tr2, hfold, _, htr⟩ := refresh_some_eq h
  rw [htr, countScrolls_append, countScrolls_replicate]
  rw [refreshFold_trace _ _ _ _ _ hfold]
  rfl

/-! ### Lemmas about the write loop of `print_at` -/

theorem writeFold_ok (colour attr bg : Int) (yIdx xIdx hgt w : Nat) :
    ∀ (l : List Char) (k : Nat) (db : List (List Cell)),
      WFgrid db hgt w → yIdx < hgt → xIdx + k + l.length ≤ w →
      ∃ db',
        (l.enumFrom k).foldlM (printStep yIdx xIdx colour attr bg false) db =
          some db' ∧
        WFgrid db' hgt w ∧
        (∀ i c, l[i]? = some c →
          cell2 db' yIdx (xIdx + k + i) = some ⟨c, colour, attr, bg⟩) ∧
        (∀ r c, (r ≠ yIdx ∨ c < xIdx + k ∨ xIdx + k + l.length ≤ c) →
          cell2 db' r c = cell2 db r c) := by
  intro l
  induction l with
  | nil =>
    intro k db hwf _ _
    refine ⟨db, by simp [List.enumFrom], hwf, ?_, ?_⟩
    · intro i c hc
      exact absurd hc (by simp)
    · intro r c _
      rfl
  | cons ch0 tl ih =>
    intro k db hwf hy hlen
    obtain ⟨row, hrow, hrowlen⟩ := WFgrid_row_exists hwf hy
    have hxk : xIdx + k < w := by
      have := List.length_cons ch0 tl
      omega
    have hset : pySet2 db yIdx (xIdx + k) ⟨ch0, colour, attr, bg⟩ =
        some (db.set yIdx (row.set (xIdx + k) ⟨ch0, colour, attr, bg⟩)) :=
      pySet2_of_lt _ hrow (hrowlen ▸ hxk)
    set db1 := db.set yIdx (row.set (xIdx + k) ⟨ch0, colour, attr, bg⟩) with hdb1
    have hwf1 : WFgrid db1 hgt w := WFgrid_set _ hwf hrow
    obtain ⟨db', hfold, hwf', hpost, hframe⟩ :=
      ih (k + 1) db1 hwf1 hy (by have := List.length_cons ch0 tl; omega)
    refine ⟨db', ?_, hwf', ?_, ?_⟩
    · rw [List.enumFrom_cons, List.foldlM_cons]
      have hstep : printStep yIdx xIdx colour attr bg false db (k, ch0) =
          some db1 := by
        unfold printStep
        rw [if_pos (Or.inr rfl)]
        exact hset
      rw [hstep]
      simpa using hfold
    · intro i c hc
      cases i with
      | zero =>
        simp only [List.getElem?_cons_zero, Option.some.injEq] at hc
        subst hc
        rw [Nat.add_zero, hframe yIdx (xIdx + k) (Or.inr (Or.inl (by omega)))]
        exact cell2_set_self _ hrow (hrowlen ▸ hxk)
      | succ j =>
        simp only [List.getElem?_cons_succ] at hc
        have harith : xIdx + k + (j + 1) = xIdx + (k + 1) + j := by omega
        rw [harith]
        exact hpost j c hc
    · intro r c hrc
      have hne : r ≠ yIdx ∨ c < xIdx + (k + 1) ∨ xIdx + (k + 1) + tl.length ≤ c := by
        rcases hrc with hrc | hrc | hrc
        · exact Or.inl hrc
        · exact Or.inr (Or.inl (by omega))
        · exact Or.inr (Or.inr (by
            have := List.length_cons ch0 tl
            omega))
      rw [hframe r c hne, hdb1]
      have hne2 : r ≠ yIdx ∨ c ≠ xIdx + k := by
        rcases hrc with hrc | hrc | hrc
        · exact Or.inl hrc
        · exact Or.inr (by omega)
        · exact Or.inr (by
            have := List.length_cons ch0 tl
            omega)
      exact cell2_set_ne _ hrow hne2

theorem printAt_fields {st st' : ScreenState} {text : List Char}
    {x y colour attr bg : Int} {transparent : Bool}
    (h : printAt st text x y colour attr bg transparent = some st') :
    st'.screenBuffer = st.screenBuffer ∧ st'.height = st.height ∧
    st'.width = st.width ∧ st'.bufferHeight = st.bufferHeight ∧
    st'.startLine = st.startLine ∧ st'.lastStartLine = st.lastStartLine ∧
    st'.cursorX = st.cursorX ∧ st'.cursorY = st.cursorY := by
  unfold printAt at h
  split at h
  case isTrue =>
    cases h
    exact ⟨rfl, rfl, rfl, rfl, rfl, rfl, rfl, rfl⟩
  dsimp only at h
  repeat' split at h
  all_goals first
    | (cases h; exact ⟨rfl, rfl, rfl, rfl, rfl, rfl, rfl, rfl⟩)
    | (obtain ⟨db', _, hst⟩ := Option.map_eq_some'.mp h
       rw [← hst]
       exact ⟨rfl, rfl, rfl, rfl, rfl, rfl, rfl, rfl⟩)

theorem printAt_ok {st : ScreenState} (hwf : WF st)
    (text : List Char) {x y : Int} (colour attr bg : Int)
    (hx0 : 0 ≤ x) (hxw : x < (st.width : Int)) (hy0 : 0 ≤ y)
    (hyb : y < (st.bufferHeight : Int)) :
    ∃ st', printAt st text x y colour attr bg false = some st' ∧
      WF st' ∧ st'.screenBuffer = st.screenBuffer ∧
      (∀ i c, i < st.width - x.toNat → text[i]? = some c →
        cell2 st'.doubleBuffer y.toNat (x.toNat + i) =
          some ⟨c, colour, attr, bg⟩) ∧
      (∀ r c, (r ≠ y.toNat ∨ c < x.toNat ∨
          x.toNat + min text.length (st.width - x.toNat) ≤ c) →
        cell2 st'.doubleBuffer r c = cell2 st.doubleBuffer r c) := by
  have hyN : y.toNat < st.bufferHeight := by omega
  have hxN : x.toNat < st.width := by omega
  unfold printAt
  rw [if_neg (by omega : ¬ (y < 0 ∨ y ≥ (st.bufferHeight : Int)))]
  dsimp only
  rw [if_neg (by omega : ¬ x < 0)]
  dsimp only
  by_cases hge : x + (text.length : Int) ≥ (st.width : Int)
  · rw [if_pos hge]
    have htrunc : pyTakeSlice text ((st.width : Int) - x) =
        text.take (st.width - x.toNat) := by
      unfold pyTakeSlice
      rw [if_neg (by omega)]
      congr 1
      omega
    rw [htrunc]
    obtain ⟨db', hfold, hwfdb, hpost, hframe⟩ :=
      writeFold_ok colour attr bg y.toNat x.toNat st.bufferHeight st.width
        (text.take (st.width - x.toNat)) 0 st.doubleBuffer hwf.2 hyN
        (by rw [List.length_take]; omega)
    by_cases hlen : (text.take (st.width - x.toNat)).length > 0
    · rw [if_pos hlen, List.enum_eq_enumFrom, hfold]
      refine ⟨_, rfl, ⟨hwf.1, hwfdb⟩, rfl, ?_, ?_⟩
      · intro i c hi hc
        have := hpost i c (by rw [List.getElem?_take, if_pos hi]; exact hc)
        simpa using this
      · intro r c hrc
        refine hframe r c ?_
        rcases hrc with hrc | hrc | hrc
        · exact Or.inl hrc
        · exact Or.inr (Or.inl (by omega))
        · exact Or.inr (Or.inr (by rw [List.length_take]; omega))
    · rw [if_neg hlen]
      have htext0 : text.length = 0 := by
        rw [List.length_take] at hlen
        omega
      refine ⟨st, rfl, hwf, rfl, ?_, fun r c _ => rfl⟩
      intro i c _ hc
      rw [List.getElem?_eq_none (by omega)] at hc
      exact absurd hc (by simp)
  · rw [if_neg hge]
    have htext_le : text.length ≤ st.width - x.toNat := by omega
    obtain ⟨db', hfold, hwfdb, hpost, hframe⟩ :=
      writeFold_ok colour attr bg y.toNat x.toNat st.bufferHeight st.width
        text 0 st.doubleBuffer hwf.2 hyN (by omega)
    by_cases hlen : text.length > 0
    · rw [if_pos hlen, List.enum_eq_enumFrom, hfold]
      refine ⟨_, rfl, ⟨hwf.1, hwfdb⟩, rfl, ?_, ?_⟩
      · intro i c _ hc
        have := hpost i c hc
        simpa using this
      · intro r c hrc
        refine hframe r c ?_
        rcases hrc with hrc | hrc | hrc
        · exact Or.inl hrc
        · exact Or.inr (Or.inl (by omega))
        · exact Or.inr (Or.inr (by omega))
    · rw [if_neg hlen]
      refine ⟨st, rfl, hwf, rfl, ?_, fun r c _ => rfl⟩
      intro i c _ hc
      rw [List.getElem?_eq_none (by omega)] at hc
      exact absurd hc (by simp)

/-! ### Support for the scroll-count claim -/

theorem scrollN_eq (st : ScreenState) (n : Nat) :
    scrollN st n = { st with startLine := st.startLine + n } := by
  induction n with
  | zero => rfl
  | succ k ih =>
    show scroll (scrollN st k) = _
    rw [ih]
    rfl

theorem WF_scrollN (st : ScreenState) (n : Nat) (hwf : WF st) :
    WF (scrollN st n) := by
  rw [scrollN_eq]
  exact hwf

/-! ### Support for `get_from` index semantics -/

/-- The buffer index a Python index `i` addresses in a list of length `n`
(after the negative-index shift). -/
def pyIdx (i : Int) (n : Nat) : Nat :=
  (if i < 0 then i + n else i).toNat

theorem getElem?_isSome_iff {α : Type} (l : List α) (i : Nat) :
    l[i]?.isSome = true ↔ i < l.length := by
  rw [Option.isSome_iff_ne_none, ne_eq, List.getElem?_eq_none_iff]
  omega

theorem pyGet_isSome {α : Type} (l : List α) (i : Int) :
    (pyGet l i).isSome ↔
      (-(l.length : Int) ≤ i ∧ i < (l.length : Int)) := by
  unfold pyGet
  dsimp only
  by_cases hneg : i < 0
  · rw [if_pos hneg]
    by_cases hlow : i + (l.length : Int) < 0
    · rw [if_pos hlow]
      simp only [Option.isSome_none, Bool.false_eq_true, false_iff]
      omega
    · rw [if_neg hlow]
      rw [getElem?_isSome_iff]
      omega
  · rw [if_neg hneg, if_neg hneg]
    rw [getElem?_isSome_iff]
    omega

theorem pyGet_in_range {α : Type} (l : List α) (i : Int)
    (h1 : -(l.length : Int) ≤ i) (h2 : i < (l.length : Int)) :
    pyGet l i = l[pyIdx i l.length]? := by
  unfold pyGet pyIdx
  dsimp only
  by_cases hneg : i < 0
  · rw [if_pos hneg, if_neg (show ¬ i + (l.length : Int) < 0 by omega)]
  · rw [if_neg hneg, if_neg hneg]

/-! ### Claim theorems -/

set_option maxRecDepth 40000

/-- C4: from a state with no pending scrolls, calling `scroll()` N times and
then `refresh()` makes the diff engine invoke the backend `_scroll`
primitive exactly N times during that refresh, and a subsequent `refresh()`
with no intervening `scroll()` invokes `_scroll` exactly zero times. -/
theorem C4_scroll_backend_calls (st : ScreenState) (N : Nat) (hwf : WF st)
    (hbase : st.lastStartLine = st.startLine)
    (hvp : st.startLine + N + st.height ≤ st.bufferHeight) :
    ∃ st1 tr1 st2 tr2,
      refresh (scrollN st N) = some (st1, tr1) ∧ countScrolls tr1 = N ∧
      refresh st1 = some (st2, tr2) ∧ countScrolls tr2 = 0 := by
  have hwfN : WF (scrollN st N) := WF_scrollN st N hwf
  have hfieldsN := scrollN_eq st N
  obtain ⟨st1, tr1, hr1, hwf1⟩ := refresh_complete hwfN (by rw [hfieldsN]; dsimp only; omega)
  have hc1 : countScrolls tr1 = N := by
    rw [refresh_scroll_count hr1, hfieldsN]
    dsimp only
    omega
  obtain ⟨hdb1, hsl1, hlsl1, hh1, hw1, hbh1⟩ := refresh_fields hr1
  obtain ⟨st2, tr2, hr2, _⟩ := refresh_complete hwf1 (by
    rw [hsl1, hh1, hbh1, hfieldsN]
    dsimp only
    omega)
  have hc2 : countScrolls tr2 = 0 := by
    rw [refresh_scroll_count hr2, hsl1, hlsl1]
    omega
  exact ⟨st1, tr1, st2, tr2, hr1, hc1, hr2, hc2⟩

/-- C4 witness: a 2×2 viewport over a 6-row buffer, scrolled 3 times. -/
theorem C4_witness :
    WF (initScreen 2 2 6) ∧
    (initScreen 2 2 6).lastStartLine = (initScreen 2 2 6).startLine ∧
    (initScreen 2 2 6).startLine + 3 + (initScreen 2 2 6).height ≤
      (initScreen 2 2 6).bufferHeight ∧
    (∃ st1 tr1 st2 tr2,
      refresh (scrollN (initScreen 2 2 6) 3) = some (st1, tr1) ∧
      countScrolls tr1 = 3 ∧
      refresh st1 = some (st2, tr2) ∧ countScrolls tr2 = 0) :=
  ⟨by decide, rfl, by decide,
    C4_scroll_backend_calls (initScreen 2 2 6) 3 (by decide) rfl (by decide)⟩

/-- C9: the body of `Screen.putch` re-invokes `putch` itself with exactly
its own arguments — it never delegates to `print_at` — so no amount of
call-stack fuel lets a `putch` call complete. -/
theorem C9_putch_self_recursion (fuel : Nat) (text : List Char)
    (x y colour attr bg : Int) (transparent : Bool) :
    putchBody text x y colour attr bg transparent =
      PutchCall.toPutch text x y colour attr bg transparent ∧
    putchEval fuel text x y colour attr bg transparent = none := by
  refine ⟨rfl, ?_⟩
  induction fuel with
  | zero => rfl
  | succ k ih => exact ih

/-- C6 counterexample: the claim says the palette has length 24 (3 × 8)
below 256-colour depth, but `_8_palette` is zero-padded with
`248 * 3` extra bytes, so `palette` at depth 8 has length 768, not 24. -/
theorem C6_counterexample :
    (palette 8).length = 768 ∧ (palette 8).length ≠ 24 := by
  constructor
  · show (palette8).length = 768
    unfold palette8
    rw [List.length_append, List.length_replicate]
    decide
  · show (palette8).length ≠ 24
    unfold palette8
    rw [List.length_append, List.length_replicate]
    decide

/-- C6 amended: the `palette` property always returns a flat RGB byte
sequence of length 768 (3 × 256): below 256 colours it is the ANSI
8-colour table padded to 768 with zero bytes, otherwise the full
256-colour table. -/
theorem C6_palette_length (colours : Nat) :
    (palette colours).length = 768 ∧
    palette 8 = palette8 ∧ palette 256 = palette256 ∧
    palette8.drop 24 = List.replicate (248 * 3) 0x00 ∧
    palette256.length = 768 := by
  refine ⟨?_, rfl, rfl, ?_, by decide⟩
  · unfold palette
    split
    · unfold palette8
      rw [List.length_append, List.length_replicate]
      decide
    · decide
  · unfold palette8
    decide

/-- C7 counterexample: `_WindowsScreen.has_resized` compares against the
dimensions recorded by the *previous call*, and the constructor records
none (`_last_width is None`). A screen constructed at 80×25 and resized to
81×25 before the first `has_resized()` call: that first call returns
`False`, not `True` as the claim requires on every backend. -/
theorem C7_counterexample :
    (windowsHasResized ⟨none, none⟩ 81 25).1 = false := rfl

/-- C7 amended: the curses/blessed `has_resized` is exactly edge-triggered
(after a resize signal the first call returns true, an immediate second
call returns false, and it never returns true without a pending signal);
the Windows `has_resized` returns true on the first call after a resize
provided an earlier call recorded the pre-resize dimensions, and a second
call with unchanged dimensions returns false. -/
theorem C7_has_resized_edge_trigger (flag : Bool) (st : WinResizeState)
    (w h lw lh : Int) (hchange : w ≠ lw ∨ h ≠ lh) :
    (cursesHasResized (cursesResizeSignal flag)).1 = true ∧
    (cursesHasResized
      (cursesHasResized (cursesResizeSignal flag)).2).1 = false ∧
    (cursesHasResized false).1 = false ∧
    (windowsHasResized ⟨some lw, some lh⟩ w h).1 = true ∧
    (windowsHasResized (windowsHasResized st w h).2 w h).1 = false := by
  refine ⟨rfl, rfl, rfl, ?_, ?_⟩
  · unfold windowsHasResized
    simp only [Option.isSome_some, Bool.true_and, Bool.or_eq_true,
      decide_eq_true_eq, ne_eq, Option.some.injEq]
    tauto
  · unfold windowsHasResized
    simp

/-- C7 witness: baseline 80×25 recorded, then a resize to 81×25. -/
theorem C7_witness :
    ((81 : Int) ≠ 80 ∨ (25 : Int) ≠ 25) ∧
    ((cursesHasResized (cursesResizeSignal false)).1 = true ∧
     (cursesHasResized
       (cursesHasResized (cursesResizeSignal false)).2).1 = false ∧
     (cursesHasResized false).1 = false ∧
     (windowsHasResized ⟨some 80, some 25⟩ 81 25).1 = true ∧
     (windowsHasResized
       (windowsHasResized ⟨none, none⟩ 81 25).2 81 25).1 = false) :=
  ⟨by decide,
    C7_has_resized_edge_trigger false ⟨none, none⟩ 81 25 80 25 (by decide)⟩

theorem printAt_neg_x (st : ScreenState) (text : List Char) {x : Int}
    (hx : x < 0) (y colour attr bg : Int) (transparent : Bool) :
    printAt st text x y colour attr bg transparent =
      printAt st (text.drop (-x).toNat) 0 y colour attr bg transparent := by
  unfold printAt
  dsimp only
  rw [if_pos hx, if_neg (by omega : ¬ (0 : Int) < 0)]
  rfl

theorem printAt_overflow {st : ScreenState} (hwf : WF st)
    (text : List Char) {x y : Int}
    (hx : (st.width : Int) < x) (hy0 : 0 ≤ y)
    (hyb : y < (st.bufferHeight : Int))
    (hlen : x - (st.width : Int) < text.length)
    (colour attr bg : Int) :
    printAt st text x y colour attr bg false = none := by
  unfold printAt
  rw [if_neg (by omega : ¬ (y < 0 ∨ y ≥ (st.bufferHeight : Int)))]
  dsimp only
  rw [if_neg (by omega : ¬ x < 0)]
  dsimp only
  rw [if_pos (by omega : x + (text.length : Int) ≥ (st.width : Int))]
  have hxw : st.width < x.toNat := by omega
  have hlen3 : 0 < (pyTakeSlice text ((st.width : Int) - x)).length := by
    unfold pyTakeSlice
    rw [if_pos (by omega), List.length_take]
    omega
  rw [if_pos hlen3]
  cases htl : pyTakeSlice text ((st.width : Int) - x) with
  | nil => rw [htl] at hlen3; exact absurd hlen3 (by simp)
  | cons c0 tl =>
    rw [List.enum_eq_enumFrom, List.enumFrom_cons, List.foldlM_cons]
    have hstep : printStep y.toNat x.toNat colour attr bg false
        st.doubleBuffer (0, c0) = none := by
      unfold printStep
      rw [if_pos (Or.inr rfl)]
      obtain ⟨row, hrow, hrowlen⟩ :=
        WFgrid_row_exists hwf.2 (show y.toNat < st.bufferHeight by omega)
      unfold pySet2
      rw [hrow]
      simp only [Option.bind_eq_bind, Option.some_bind]
      unfold pySetNat
      rw [if_neg (by omega)]
      simp
    rw [hstep]
    simp

theorem printAt_at_width (st : ScreenState) (text : List Char) (y : Int)
    (colour attr bg : Int) (transparent : Bool) :
    printAt st text (st.width : Int) y colour attr bg transparent =
      some st := by
  unfold printAt
  split
  · rfl
  · dsimp only
    rw [if_neg (by omega : ¬ (st.width : Int) < 0)]
    dsimp only
    rw [if_pos (by omega : (st.width : Int) + (text.length : Int) ≥
      (st.width : Int))]
    have h0 : (pyTakeSlice text ((st.width : Int) - st.width)).length = 0 := by
      unfold pyTakeSlice
      rw [if_neg (by omega)]
      simp
    rw [if_neg (by omega)]

/-- C1 counterexample: a reachable state in which a drawing call touched a
cell below the viewport (`print_at` at row 1 with a 1-row viewport over a
2-row buffer). The subsequent completed `refresh()` leaves the committed
buffer different from the pending buffer at that cell, contradicting the
claim that they agree in every cell including dirty cells outside the
viewport. -/
theorem C1_counterexample :
    ∃ st1 st2 tr,
      printAt (initScreen 1 1 2) (['A']) 0 1 7 0 0 false = some st1 ∧
      refresh st1 = some (st2, tr) ∧
      cell2 st2.screenBuffer 1 0 ≠ cell2 st2.doubleBuffer 1 0 :=
  ⟨_, _, _, rfl, rfl, by decide⟩

/-- C1 (amended): after any completed `refresh()` from a well-formed state
whose viewport fits in the buffer, the committed buffer equals the pending
buffer at every cell of the current viewport; cells outside the viewport
are never diffed and may keep diverging. -/
theorem C1_refresh_syncs_viewport (st : ScreenState) (hwf : WF st)
    (hvp : st.startLine + st.height ≤ st.bufferHeight) :
    ∃ st' tr, refresh st = some (st', tr) ∧
      st'.doubleBuffer = st.doubleBuffer ∧
      ∀ y x, st.startLine ≤ y → y < st.startLine + st.height →
        x < st.width →
        cell2 st'.screenBuffer y x = cell2 st'.doubleBuffer y x := by
  obtain ⟨st', tr, hr, _⟩ := refresh_complete hwf hvp
  obtain ⟨hdb, _, _, _, _, _⟩ := refresh_fields hr
  refine ⟨st', tr, hr, hdb, ?_⟩
  intro y x hy1 hy2 hx
  rw [hdb]
  have hvw := refresh_viewport hr (y - st.startLine) x (by omega) hx
  rwa [Nat.sub_add_cancel hy1] at hvw

/-- C1 witness: a fresh 2×2 screen over a 4-row buffer. -/
theorem C1_witness :
    ∃ st' tr, refresh (initScreen 2 2 4) = some (st', tr) ∧
      st'.doubleBuffer = (initScreen 2 2 4).doubleBuffer ∧
      ∀ y x, (initScreen 2 2 4).startLine ≤ y →
        y < (initScreen 2 2 4).startLine + (initScreen 2 2 4).height →
        x < (initScreen 2 2 4).width →
        cell2 st'.screenBuffer y x = cell2 st'.doubleBuffer y x :=
  C1_refresh_syncs_viewport (initScreen 2 2 4) (by decide) (by decide)

/-- C3 counterexample: with width 10, `print_at("HELLO", 12, 0)` satisfies
the claim's premise `x + len(text) >= width`, but instead of writing
`text[:width - x]` (= `"HEL"`, a nonempty string) it raises `IndexError`
(the truncated text would start at column 12, outside the row). -/
theorem C3_counterexample :
    (12 : Int) + ((("HELLO".toList)).length : Int) ≥
      (((initScreen 10 10 10)).width : Int) ∧
    printAt (initScreen 10 10 10) (("HELLO".toList)) 12 0 7 0 0 false =
      none :=
  ⟨by decide, by decide⟩

/-- C3 (amended): for `0 <= y < buffer_height`, `print_at` clips
horizontally as the claim says for `x <= width`: a negative `x` drops the
leading `-x` characters and restarts at column 0; for `0 <= x < width` the
call succeeds and writes exactly `text[:width - x]` starting at column `x`,
leaving every cell at column `>= width` (and every other row) untouched;
`x = width` writes nothing; but for `x > width` with
`len(text) > x - width` the call raises `IndexError` instead of clipping. -/
theorem C3_horizontal_clipping (st : ScreenState) (hwf : WF st)
    (text : List Char) (x y colour attr bg : Int)
    (hy0 : 0 ≤ y) (hyb : y < (st.bufferHeight : Int)) :
    (x < 0 →
      printAt st text x y colour attr bg false =
        printAt st (text.drop (-x).toNat) 0 y colour attr bg false) ∧
    (0 ≤ x → x < (st.width : Int) →
      ∃ st', printAt st text x y colour attr bg false = some st' ∧
        WF st' ∧
        (∀ i c, i < st.width - x.toNat → text[i]? = some c →
          cell2 st'.doubleBuffer y.toNat (x.toNat + i) =
            some ⟨c, colour, attr, bg⟩) ∧
        (∀ r c, (r ≠ y.toNat ∨ c < x.toNat ∨
            x.toNat + min text.length (st.width - x.toNat) ≤ c) →
          cell2 st'.doubleBuffer r c = cell2 st.doubleBuffer r c) ∧
        (∀ r c, st.width ≤ c →
          cell2 st'.doubleBuffer r c = cell2 st.doubleBuffer r c)) ∧
    (printAt st text (st.width : Int) y colour attr bg false = some st) ∧
    ((st.width : Int) < x → x - (st.width : Int) < text.length →
      printAt st text x y colour attr bg false = none) := by
  refine ⟨?_, ?_, printAt_at_width st text y colour attr bg false, ?_⟩
  · intro hx
    exact printAt_neg_x st text hx y colour attr bg false
  · intro hx0 hxw
    obtain ⟨st', hpr, hwf', _, hpost, hframe⟩ :=
      printAt_ok hwf text colour attr bg hx0 hxw hy0 hyb
    refine ⟨st', hpr, hwf', hpost, hframe, ?_⟩
    intro r c hc
    refine hframe r c (Or.inr (Or.inr ?_))
    have : min text.length (st.width - x.toNat) ≤ st.width - x.toNat :=
      Nat.min_le_right _ _
    omega
  · intro hx hlen
    exact printAt_overflow hwf text hx hy0 hyb hlen colour attr bg

/-- C3 witness: the spec's own example, `print_at("HELLO", -2, 0)` on a
4-wide screen, equals printing the truncated `"LLO"` at column 0. -/
theorem C3_witness :
    printAt (initScreen 4 4 6) (("HELLO".toList)) (-2) 0 7 0 0 false =
      printAt (initScreen 4 4 6) ((("HELLO".toList)).drop 2) 0 0 7 0 0
        false :=
  (C3_horizontal_clipping (initScreen 4 4 6) (by decide) (("HELLO".toList))
    (-2) 0 7 0 0 (by decide) (by decide)).1 (by decide)

/-- C5 counterexample: after `move(0, 0)`, the call `draw(3, 0, char='#')`
leaves cell (3, 0) holding the blank cell, not `'#'` (the rasterization
loop `while x != x1` stops before plotting the endpoint cell); the cursor
does end at sub-cell (6, 0). -/
theorem C5_counterexample :
    (draw (move (initScreen 10 10 10) 0 0) 3 0 (some '#') 7 0 false).map
      (fun st => ((cell2 st.doubleBuffer 0 3).map Cell.ch,
        st.cursorX, st.cursorY)) = some (some ' ', some 6, some 0) := by
  decide

/-- C5 (amended): after `move(0, 0)`, `draw(3, 0, char='#')` writes `'#'`
at cells (0,0), (1,0) and (2,0), leaves the endpoint cell (3,0) untouched
(blank), and leaves the drawing cursor at logical (3, 0), i.e. sub-cell
coordinates (6, 0). -/
theorem C5_draw_horizontal_char :
    (draw (move (initScreen 10 10 10) 0 0) 3 0 (some '#') 7 0 false).map
      (fun st =>
        (cell2 st.doubleBuffer 0 0, cell2 st.doubleBuffer 0 1,
         cell2 st.doubleBuffer 0 2, cell2 st.doubleBuffer 0 3,
         st.cursorX, st.cursorY)) =
      some (some (Cell.mk '#' 7 0 0), some (Cell.mk '#' 7 0 0),
        some (Cell.mk '#' 7 0 0), some blankCell, some 6, some 0) := by
  rfl

theorem pyGet_nonneg {α : Type} (l : List α) (i : Int) (h : 0 ≤ i) :
    pyGet l i = l[i.toNat]? := by
  unfold pyGet
  dsimp only
  rw [if_neg (by omega), if_neg (by omega)]

theorem get_from_nonneg (st : ScreenState) (x y : Int)
    (hx : 0 ≤ x) (hy : 0 ≤ y) :
    get_from st x y = (cell2 st.screenBuffer y.toNat x.toNat).map
      (fun cell => (cell.ch.toNat, cell.fg, cell.attr, cell.bg)) := by
  unfold get_from cell2
  rw [pyGet_nonneg _ _ hy]
  cases st.screenBuffer[y.toNat]? with
  | none => rfl
  | some row =>
    simp only [Option.bind_eq_bind, Option.some_bind, Option.map_some']
    rw [pyGet_nonneg _ _ hx]
    cases row[x.toNat]? with
    | none => rfl
    | some cell => rfl

/-- C2: for a cell `(x, y)` inside the current viewport, printing `text` at
`(x, y)` and then refreshing makes `get_from(x + i, y)` return
`(ord(text[i]), colour, attr, bg)` for every character index `i` whose cell
still lies inside the viewport width. -/
theorem C2_print_refresh_get_roundtrip (st : ScreenState) (hwf : WF st)
    (hvp : st.startLine + st.height ≤ st.bufferHeight)
    (text : List Char) (x y : Int) (colour attr bg : Int)
    (hx0 : 0 ≤ x) (hxw : x < (st.width : Int))
    (hy0 : (st.startLine : Int) ≤ y)
    (hyh : y < (st.startLine : Int) + st.height)
    (i : Nat) (c : Char) (hc : text[i]? = some c)
    (hxi : x + i < (st.width : Int)) :
    ∃ st1 st2 tr,
      printAt st text x y colour attr bg false = some st1 ∧
      refresh st1 = some (st2, tr) ∧
      get_from st2 (x + i) y = some (c.toNat, colour, attr, bg) := by
  have hy0' : (0 : Int) ≤ y := by omega
  have hyb : y < (st.bufferHeight : Int) := by omega
  obtain ⟨st1, hpr, hwf1, hsb1, hpost, _⟩ :=
    printAt_ok hwf text colour attr bg hx0 hxw hy0' hyb
  obtain ⟨_, hh1, hw1, hbh1, hsl1, _, _, _⟩ := printAt_fields hpr
  obtain ⟨st2, tr, hr, _⟩ := refresh_complete hwf1 (by rw [hsl1, hh1, hbh1]; omega)
  refine ⟨st1, st2, tr, hpr, hr, ?_⟩
  rw [get_from_nonneg st2 (x + i) y (by omega) hy0']
  have hyn1 : y.toNat - st1.startLine < st1.height := by
    rw [hsl1, hh1]
    omega
  have hxn1 : (x + i).toNat < st1.width := by
    rw [hw1]
    omega
  have hvw := refresh_viewport hr (y.toNat - st1.startLine) (x + i).toNat
    hyn1 hxn1
  rw [Nat.sub_add_cancel (by rw [hsl1]; omega)] at hvw
  rw [hvw]
  have hxi2 : (x + i).toNat = x.toNat + i := by omega
  rw [hxi2]
  rw [hpost i c (by omega) hc]
  rfl

/-- C2 witness: printing "AB" at (1, 0) on a fresh 3×3 screen and reading
back character index 1 after the refresh. -/
theorem C2_witness :
    ∃ st1 st2 tr,
      printAt (initScreen 3 3 5) (("AB".toList)) 1 0 2 1 4 false =
        some st1 ∧
      refresh st1 = some (st2, tr) ∧
      get_from st2 ((1 : Int) + (1 : Nat)) 0 = some ('B'.toNat, 2, 1, 4) :=
  C2_print_refresh_get_roundtrip (initScreen 3 3 5) (by decide) (by decide)
    (("AB".toList)) 1 0 2 1 4 (by decide) (by decide) (by decide)
    (by decide) 1 'B' (by decide) (by decide)

theorem pyGet_mem {α : Type} {l : List α} {i : Int} {a : α}
    (h : pyGet l i = some a) : a ∈ l := by
  unfold pyGet at h
  dsimp only at h
  split at h
  · split at h
    · exact absurd h (by simp)
    · exact List.getElem?_mem h
  · exact List.getElem?_mem h

/-- C10: `get_from` performs unchecked Python indexing into the committed
buffer: for `y` in `[-buffer_height, buffer_height)` and `x` in
`[-width, width)` it returns the cell (negative coordinates indexing from
the end, Python list semantics), and outside those ranges it raises
`IndexError` (`none`) instead of clipping like the drawing operations. -/
theorem C10_get_from_unchecked_indexing (st : ScreenState) (hwf : WF st)
    (x y : Int) :
    ((get_from st x y).isSome ↔
      (-(st.bufferHeight : Int) ≤ y ∧ y < (st.bufferHeight : Int) ∧
       -(st.width : Int) ≤ x ∧ x < (st.width : Int))) ∧
    (∀ code fg attr bg, get_from st x y = some (code, fg, attr, bg) →
      ∃ cell, cell2 st.screenBuffer (pyIdx y st.bufferHeight)
          (pyIdx x st.width) = some cell ∧
        code = cell.ch.toNat ∧ fg = cell.fg ∧ attr = cell.attr ∧
        bg = cell.bg) := by
  have hsblen : st.screenBuffer.length = st.bufferHeight := hwf.1.1
  constructor
  · cases hrow : pyGet st.screenBuffer y with
    | none =>
      have hns : ¬ (-(st.screenBuffer.length : Int) ≤ y ∧
          y < (st.screenBuffer.length : Int)) := by
        rw [← pyGet_isSome st.screenBuffer y, hrow]
        simp
      unfold get_from
      rw [hrow]
      simp only [Option.bind_eq_bind, Option.none_bind, Option.isSome_none,
        Bool.false_eq_true, false_iff]
      rw [hsblen] at hns
      omega
    | some row =>
      have hrs : -(st.screenBuffer.length : Int) ≤ y ∧
          y < (st.screenBuffer.length : Int) := by
        rw [← pyGet_isSome st.screenBuffer y, hrow]
        simp
      have hrowlen : row.length = st.width := hwf.1.2 row (pyGet_mem hrow)
      unfold get_from
      rw [hrow]
      simp only [Option.bind_eq_bind, Option.some_bind]
      rw [hsblen] at hrs
      cases hcell : pyGet row x with
      | none =>
        have hns : ¬ (-(row.length : Int) ≤ x ∧ x < (row.length : Int)) := by
          rw [← pyGet_isSome row x, hcell]
          simp
        simp only [Option.none_bind, Option.isSome_none, Bool.false_eq_true,
          false_iff]
        rw [hrowlen] at hns
        omega
      | some cell =>
        have hcs : -(row.length : Int) ≤ x ∧ x < (row.length : Int) := by
          rw [← pyGet_isSome row x, hcell]
          simp
        simp only [Option.some_bind, Option.pure_def, Option.isSome_some,
          true_iff]
        rw [hrowlen] at hcs
        omega
  · intro code fg attr bg h
    unfold get_from at h
    cases hrow : pyGet st.screenBuffer y with
    | none => rw [hrow] at h; exact absurd h (by simp)
    | some row =>
      rw [hrow] at h
      simp only [Option.bind_eq_bind, Option.some_bind] at h
      cases hcell : pyGet row x with
      | none => rw [hcell] at h; exact absurd h (by simp)
      | some cell =>
        rw [hcell] at h
        simp only [Option.some_bind, Option.pure_def, Option.some.injEq,
          Prod.mk.injEq] at h
        have hrs : -(st.screenBuffer.length : Int) ≤ y ∧
            y < (st.screenBuffer.length : Int) := by
          rw [← pyGet_isSome st.screenBuffer y, hrow]
          simp
        have hrowlen : row.length = st.width := hwf.1.2 row (pyGet_mem hrow)
        have hcs : -(row.length : Int) ≤ x ∧ x < (row.length : Int) := by
          rw [← pyGet_isSome row x, hcell]
          simp
        refine ⟨cell, ?_, h.1.symm, h.2.1.symm, h.2.2.1.symm, h.2.2.2.symm⟩
        unfold cell2
        rw [← hsblen, ← pyGet_in_range _ _ hrs.1 hrs.2, hrow]
        simp only [Option.some_bind]
        have hpy : pyIdx x st.width = pyIdx x row.length := by
          rw [hrowlen]
        rw [hpy, ← pyGet_in_range _ _ hcs.1 hcs.2, hcell]

/-! ### Drawing calls never touch the committed buffer -/

theorem paintStep_screen {x y : Int} {transparent : Bool}
    {cm : List ColourMapEntry} {acc acc' : ScreenState × Int × Int × Int}
    {ic : Nat × Char} (h : paintStep x y transparent cm acc ic = some acc') :
    acc'.1.screenBuffer = acc.1.screenBuffer := by
  unfold paintStep at h
  cases he : pyGetNat cm ic.1 with
  | none => rw [he] at h; exact absurd h (by simp)
  | some entry =>
    rw [he] at h
    simp only [Option.bind_eq_bind, Option.some_bind] at h
    cases hp : printAt acc.1 [ic.2] (x + ic.1) y
        (match entry.get? 0 with
          | some (some v) => v
          | _ => acc.2.1)
        (match entry.get? 1 with
          | some (some v) => v
          | _ => acc.2.2.1)
        (match entry.get? 2 with
          | some (some v) => v
          | _ => acc.2.2.2) transparent with
    | none => rw [hp] at h; exact absurd h (by simp)
    | some st1 =>
      rw [hp] at h
      simp only [Option.some_bind, Option.pure_def, Option.some.injEq] at h
      rw [← h]
      exact (printAt_fields hp).1

theorem paintFold_screen {x y : Int} {transparent : Bool}
    {cm : List ColourMapEntry} :
    ∀ (l : List (Nat × Char)) (acc acc' : ScreenState × Int × Int × Int),
      l.foldlM (paintStep x y transparent cm) acc = some acc' →
      acc'.1.screenBuffer = acc.1.screenBuffer := by
  intro l
  induction l with
  | nil =>
    intro acc acc' h
    simp only [List.foldlM_nil, Option.pure_def, Option.some.injEq] at h
    rw [← h]
  | cons p l ih =>
    intro acc acc' h
    rw [List.foldlM_cons] at h
    cases hstep : paintStep x y transparent cm acc p with
    | none => rw [hstep] at h; exact absurd h (by simp)
    | some acc1 =>
      rw [hstep] at h
      simp only [Option.bind_eq_bind, Option.some_bind] at h
      rw [ih acc1 acc' h]
      exact paintStep_screen hstep

theorem paint_screen {st st' : ScreenState} {text : List Char}
    {x y colour attr bg : Int} {transparent : Bool}
    {cm : Option (List ColourMapEntry)}
    (h : paint st text x y colour attr bg transparent cm = some st') :
    st'.screenBuffer = st.screenBuffer := by
  unfold paint at h
  cases cm with
  | none => exact (printAt_fields h).1
  | some cmap =>
    obtain ⟨acc', hfold, hst⟩ := Option.map_eq_some'.mp h
    rw [← hst]
    exact paintFold_screen _ _ _ hfold

theorem centre_screen {st st' : ScreenState} {text : List Char}
    {y colour attr : Int} {cm : Option (List ColourMapEntry)}
    (h : centre st text y colour attr cm = some st') :
    st'.screenBuffer = st.screenBuffer := by
  unfold centre at h
  exact paint_screen h

theorem drawWriteX_screen {st st' : ScreenState} {ch : Option Char}
    {colour bg sy px py : Int} {n0 n1 : Nat}
    (h : drawWriteX st ch colour bg sy px py n0 n1 = some st') :
    st'.screenBuffer = st.screenBuffer := by
  cases ch with
  | none =>
    unfold drawWriteX at h
    dsimp only at h
    obtain ⟨g0, _, h⟩ := Option.bind_eq_some.mp h
    obtain ⟨st1, hp1, h⟩ := Option.bind_eq_some.mp h
    split at h
    · obtain ⟨g1, _, hp2⟩ := Option.bind_eq_some.mp h
      rw [(printAt_fields hp2).1, (printAt_fields hp1).1]
    · cases h
      exact (printAt_fields hp1).1
  | some c =>
    unfold drawWriteX at h
    dsimp only at h
    split at h
    · obtain ⟨st1, hp1, hp2⟩ := Option.bind_eq_some.mp h
      rw [(printAt_fields hp2).1, (printAt_fields hp1).1]
    · exact (printAt_fields h).1

theorem drawWriteY_screen {st st' : ScreenState} {ch : Option Char}
    {colour bg sx px py : Int} {n0 n1 : Nat}
    (h : drawWriteY st ch colour bg sx px py n0 n1 = some st') :
    st'.screenBuffer = st.screenBuffer := by
  cases ch with
  | none =>
    unfold drawWriteY at h
    dsimp only at h
    obtain ⟨g0, _, h⟩ := Option.bind_eq_some.mp h
    obtain ⟨st1, hp1, h⟩ := Option.bind_eq_some.mp h
    split at h
    · obtain ⟨g1, _, hp2⟩ := Option.bind_eq_some.mp h
      rw [(printAt_fields hp2).1, (printAt_fields hp1).1]
    · cases h
      exact (printAt_fields hp1).1
  | some c =>
    unfold drawWriteY at h
    dsimp only at h
    split at h
    · obtain ⟨st1, hp1, hp2⟩ := Option.bind_eq_some.mp h
      rw [(printAt_fields hp2).1, (printAt_fields hp1).1]
    · exact (printAt_fields h).1

theorem drawLoopX_screen {thin : Bool} {sx sy : Int} {dx dy : Nat}
    {ch : Option Char} {colour bg : Int} {xRange : List Nat} :
    ∀ (fuel : Nat) (x y err : Int) (st st' : ScreenState),
      drawLoopX thin sx sy dx dy ch colour bg xRange fuel x y err st =
        some st' →
      st'.screenBuffer = st.screenBuffer := by
  intro fuel
  induction fuel with
  | zero =>
    intro x y err st st' h
    cases h
    rfl
  | succ k ih =>
    intro x y err st st' h
    unfold drawLoopX at h
    obtain ⟨st1, hw, hloop⟩ := Option.bind_eq_some.mp h
    rw [ih _ _ _ _ _ hloop]
    exact drawWriteX_screen hw

theorem drawLoopY_screen {thin : Bool} {sx sy : Int} {dx dy : Nat}
    {ch : Option Char} {colour bg : Int} {yRange : List Nat} :
    ∀ (fuel : Nat) (x y err : Int) (st st' : ScreenState),
      drawLoopY thin sx sy dx dy ch colour bg yRange fuel x y err st =
        some st' →
      st'.screenBuffer = st.screenBuffer := by
  intro fuel
  induction fuel with
  | zero =>
    intro x y err st st' h
    cases h
    rfl
  | succ k ih =>
    intro x y err st st' h
    unfold drawLoopY at h
    obtain ⟨st1, hw, hloop⟩ := Option.bind_eq_some.mp h
    rw [ih _ _ _ _ _ hloop]
    exact drawWriteY_screen hw

theorem draw_screen {st st' : ScreenState} {x y : Int} {ch : Option Char}
    {colour bg : Int} {thin : Bool}
    (h : draw st x y ch colour bg thin = some st') :
    st'.screenBuffer = st.screenBuffer := by
  unfold draw at h
  obtain ⟨x0, _, h⟩ := Option.bind_eq_some.mp h
  obtain ⟨y0, _, h⟩ := Option.bind_eq_some.mp h
  dsimp only at h
  split at h
  · rw [drawLoopX_screen _ _ _ _ _ _ h]
  · rw [drawLoopY_screen _ _ _ _ _ _ h]

theorem applyOp_screen {st st' : ScreenState} {op : DrawOp}
    (h : applyOp st op = some st') :
    st'.screenBuffer = st.screenBuffer := by
  cases op with
  | printOp text x y colour attr bg transparent =>
    exact (printAt_fields h).1
  | paintOp text x y colour attr bg transparent cm => exact paint_screen h
  | centreOp text y colour attr cm => exact centre_screen h
  | moveOp x y =>
    cases h
    rfl
  | drawOp x y ch colour bg thin => exact draw_screen h

theorem applyOps_screen :
    ∀ (ops : List DrawOp) (st st' : ScreenState),
      applyOps st ops = some st' →
      st'.screenBuffer = st.screenBuffer := by
  intro ops
  induction ops with
  | nil =>
    intro st st' h
    cases h
    rfl
  | cons op ops ih =>
    intro st st' h
    unfold applyOps at h
    rw [List.foldlM_cons] at h
    obtain ⟨st1, hop, hrest⟩ := Option.bind_eq_some.mp h
    rw [ih st1 st' hrest]
    exact applyOp_screen hop

/-- C8: any sequence of drawing calls (`print_at`, `paint`, `centre`,
`move`/`draw`) with no intervening `refresh()` or `clear()` mutates only
the pending buffer: the committed buffer is untouched and `get_from`
returns at every coordinate exactly what it returned before. -/
theorem C8_drawing_preserves_committed (st st' : ScreenState)
    (ops : List DrawOp) (h : applyOps st ops = some st') :
    st'.screenBuffer = st.screenBuffer ∧
    ∀ x y, get_from st' x y = get_from st x y := by
  have hsb := applyOps_screen ops st st' h
  refine ⟨hsb, ?_⟩
  intro x y
  unfold get_from
  rw [hsb]

/-- A concrete drawing sequence exercising every drawing operation. -/
def sampleOps : List DrawOp :=
  [DrawOp.printOp (("HI".toList)) 0 0 2 1 3 false,
   DrawOp.paintOp (("AB".toList)) 0 1 7 0 0 false
     (some [[some 1, none, none], []]),
   DrawOp.centreOp (("xyz".toList)) 2 4 0 none,
   DrawOp.moveOp 0 0,
   DrawOp.drawOp 3 3 none 7 0 false]

/-- C8 witness: the sample sequence on a fresh 4×4 screen. -/
theorem C8_witness :
    ∃ st', applyOps (initScreen 4 4 6) sampleOps = some st' ∧
      st'.screenBuffer = (initScreen 4 4 6).screenBuffer ∧
      ∀ x y, get_from st' x y = get_from (initScreen 4 4 6) x y :=
  ⟨_, rfl,
    (C8_drawing_preserves_committed (initScreen 4 4 6) _ sampleOps rfl).1,
    (C8_drawing_preserves_committed (initScreen 4 4 6) _ sampleOps rfl).2⟩

/-- C10 witness: a fresh 2×3 screen over a 4-row buffer, read at the
negative coordinates (-1, -4) (both wrap to valid cells). -/
theorem C10_witness :
    (get_from (initScreen 2 3 4) (-1) (-4)).isSome ↔
      (-(((initScreen 2 3 4)).bufferHeight : Int) ≤ -4 ∧
       (-4 : Int) < (((initScreen 2 3 4)).bufferHeight : Int) ∧
       -(((initScreen 2 3 4)).width : Int) ≤ -1 ∧
       (-1 : Int) < (((initScreen 2 3 4)).width : Int)) :=
  (C10_get_from_unchecked_indexing (initScreen 2 3 4) (by decide)
    (-1) (-4)).1
